import Mathlib

/-!
Verification of the SCD2 warehouse load and star-schema rebuild of
`warehouse/etl.py` (functions `run_full_load` and `run_incremental_load`)
and of the notification boundary of `flows/etl_flows.py` /
`notifications/telegram.py`.

Modelling conventions:
* SQL `DATE` / `TIMESTAMP` values are modelled as integers (`Int`); the
  open-end sentinel `'9999-12-31'` is the integer constant `OPEN`.
* Nullable columns are `Option` values; `IS DISTINCT FROM` is plain
  inequality on `Option`, `COALESCE(x, '')` is `coalesceStr`.
* SQL tables are lists of rows; `INSERT ... SELECT` appends the selected
  rows, `UPDATE` maps over the list, `DELETE ... WHERE` filters.
* Each `with warehouse_engine.begin()` block of the Python source is one
  committed step; sequences of steps are modelled as function composition,
  and the states between steps are the observable intermediate states.
* The positional date key `TO_CHAR(d, 'YYYYMMDD')::INT` is an injective
  encoding of the date; since dates are already modelled as integers it is
  modelled by the function `dateKey` (the identity on the encoding).
-/

/-- The open-end sentinel date `'9999-12-31'` used by every SCD2 table. -/
def OPEN : Int := 99991231

/-- `COALESCE(x, '')` from the change-detection SQL. -/
def coalesceStr : Option String → String
  | none => ""
  | some s => s

/-- `TO_CHAR(gs::DATE, 'YYYYMMDD')::INT`: the positional date-key encoding
(identity on our integer-coded dates). -/
def dateKey (d : Int) : Int := d

-- ───────────────────────── warehouse snapshot rows ─────────────────────────

/-- A row of `warehouse.users` (SCD2 snapshot). -/
structure UserSnap where
  user_sk : Int
  user_id : Int
  first_name : String
  last_name : String
  email : String
  phone : Option String
  country : String
  registered_at : Int
  start_date : Int
  end_date : Int
  source_id : Int
  insert_id : Int
  update_id : Option Int
deriving DecidableEq, Repr

/-- A row of `warehouse.sales_managers` (SCD2 snapshot). -/
structure ManagerSnap where
  sales_manager_sk : Int
  manager_id : Int
  first_name : String
  last_name : String
  email : String
  hired_at : Int
  start_date : Int
  end_date : Int
  source_id : Int
  insert_id : Int
  update_id : Option Int
deriving DecidableEq, Repr

/-- A row of `warehouse.courses` (SCD2 snapshot; `category`/`sub_category`
are the joined-in names from `source.categories`/`source.subcategories`). -/
structure CourseSnap where
  course_sk : Int
  course_id : Int
  title : String
  subject : String
  description : Option String
  price_in_rubbles : Int
  created_at : Int
  category : String
  sub_category : String
  start_date : Int
  end_date : Int
  source_id : Int
  insert_id : Int
  update_id : Option Int
deriving DecidableEq, Repr

/-- A row of `warehouse.enrollments` (SCD2 snapshot). -/
structure EnrollSnap where
  enrollment_sk : Int
  enrollment_id : Int
  user_sk : Int
  course_sk : Int
  enrolled_at : Int
  status : String
  start_date : Int
  end_date : Int
  source_id : Int
  insert_id : Int
  update_id : Option Int
deriving DecidableEq, Repr

/-- A row of `warehouse.sales` (SCD2 snapshot). -/
structure SaleSnap where
  sale_sk : Int
  sale_id : Int
  enrollment_sk : Int
  sales_manager_sk : Int
  sale_date : Int
  cost_in_rubbles : Int
  start_date : Int
  end_date : Int
  source_id : Int
  insert_id : Int
  update_id : Option Int
deriving DecidableEq, Repr

/-- A row of `warehouse.traffic_sources` (SCD2 snapshot). -/
structure TrafficSourceSnap where
  traffic_source_sk : Int
  source_id : Int
  name : String
  channel : String
  details : Option String
  start_date : Int
  end_date : Int
  source_id_audit : Int
  insert_id : Int
  update_id : Option Int
deriving DecidableEq, Repr

/-- A row of `warehouse.user_traffic` (SCD2 snapshot). -/
structure UserTrafficSnap where
  user_traffic_sk : Int
  user_sk : Int
  traffic_source_sk : Int
  referred_at : Int
  campaign_code : Option String
  start_date : Int
  end_date : Int
  source_id_audit : Int
  insert_id : Int
  update_id : Option Int
deriving DecidableEq, Repr

/-- The `warehouse` schema: one versioned table per entity type. -/
structure Warehouse where
  users : List UserSnap
  sales_managers : List ManagerSnap
  courses : List CourseSnap
  enrollments : List EnrollSnap
  sales : List SaleSnap
  traffic_sources : List TrafficSourceSnap
  user_traffic : List UserTrafficSnap
deriving DecidableEq, Repr

-- ───────────────────────── star-schema rows ─────────────────────────

/-- A row of `star_schema.dim_user`. -/
structure DimUser where
  user_key : Int
  user_id : Int
  first_name : String
  last_name : String
  email : String
  signup_date : Int
  country : String
deriving DecidableEq, Repr

/-- A row of `star_schema.dim_course`. -/
structure DimCourse where
  course_key : Int
  course_id : Int
  title : String
  subject : String
  price_in_rubbles : Int
  category : String
  sub_category : String
deriving DecidableEq, Repr

/-- A row of `star_schema.dim_traffic_source`. -/
structure DimTraffic where
  traffic_source_key : Int
  traffic_source_id : Int
  name : String
  channel : String
deriving DecidableEq, Repr

/-- A row of `star_schema.dim_sales_manager`. -/
structure DimManager where
  sales_manager_key : Int
  manager_id : Int
  first_name : String
  last_name : String
  email : String
  hired_at : Int
deriving DecidableEq, Repr

/-- A row of `star_schema.fact_sales`. -/
structure FactRow where
  sale_id : Int
  user_key : Int
  course_key : Int
  sales_manager_key : Int
  traffic_source_key : Int
  date_key : Int
  total_in_rubbles : Int
  enrollment_count : Int
deriving DecidableEq, Repr

/-- The star schema; `dim_date` is kept as its list of dates (the derived
year/quarter/month/day/weekday columns are functions of the date and play
no role in any property below). -/
structure StarSchema where
  dim_user : List DimUser
  dim_course : List DimCourse
  dim_traffic_source : List DimTraffic
  dim_sales_manager : List DimManager
  dim_date : List Int
  fact_sales : List FactRow
deriving DecidableEq, Repr

-- ───────────────────────── list min/max helpers ─────────────────────────

/-- `MIN(...)` over a column: `none` on the empty table. -/
def listMin : List Int → Option Int
  | [] => none
  | x :: xs =>
    match listMin xs with
    | none => some x
    | some m => some (min x m)

/-- `MAX(...)` over a column: `none` on the empty table. -/
def listMax : List Int → Option Int
  | [] => none
  | x :: xs =>
    match listMax xs with
    | none => some x
    | some m => some (max x m)

/-- `generate_series(a, b, '1 day')`: all dates from `a` to `b` inclusive. -/
def dateRange (a b : Int) : List Int :=
  (List.range (b - a + 1).toNat).map (fun i : Nat => a + (i : Int))

-- ───────────────────────── fact query (both modes) ─────────────────────────

/-- The `DISTINCT ON (user_sk) ... ORDER BY user_sk, referred_at DESC`
subquery restricted to one user: among the given rows, pick one with the
maximal `referred_at` (first-listed wins ties). -/
def pickLatest : List UserTrafficSnap → Option UserTrafficSnap
  | [] => none
  | t :: ts =>
    match pickLatest ts with
    | none => some t
    | some u => if t.referred_at < u.referred_at then some u else some t

/-- The active (`end_date = '9999-12-31'`) `warehouse.user_traffic` rows of
one `user_sk`. -/
def activeTrafficFor (uts : List UserTrafficSnap) (usk : Int) : List UserTrafficSnap :=
  uts.filter (fun t => t.user_sk == usk && t.end_date == OPEN)

/-- The single "latest" active user-traffic row per user picked by the
`DISTINCT ON` subquery of the fact queries. -/
def latestTraffic (uts : List UserTrafficSnap) (usk : Int) : Option UserTrafficSnap :=
  pickLatest (activeTrafficFor uts usk)

/-- `COALESCE(ut.traffic_source_sk, -1)` applied to the left-joined latest
traffic row. -/
def trafficKeyOf : Option UserTrafficSnap → Int
  | none => -1
  | some ut => ut.traffic_source_sk

/-- One fact row as assembled by the SELECT list of the fact queries. -/
def mkFact (s : SaleSnap) (e : EnrollSnap) (tsk : Int) : FactRow :=
  { sale_id := s.sale_id
    user_key := e.user_sk
    course_key := e.course_sk
    sales_manager_key := s.sales_manager_sk
    traffic_source_key := tsk
    date_key := dateKey s.sale_date
    total_in_rubbles := s.cost_in_rubbles
    enrollment_count := 1 }

/-- The incremental fact query's joins for one sale row: enrollments with
`e.enrollment_sk = s.enrollment_sk AND e.end_date = '9999-12-31'`, the
left-joined `DISTINCT ON` traffic subquery, and the `dim_date` join on
`s.sale_date = dd.date`. -/
def factRowsFromSaleInc (w : Warehouse) (dd : List Int) (s : SaleSnap) : List FactRow :=
  (w.enrollments.filter
      (fun e => e.enrollment_sk == s.enrollment_sk && e.end_date == OPEN)).flatMap
    (fun e =>
      (dd.filter (fun d => d == s.sale_date)).map
        (fun _ => mkFact s e (trafficKeyOf (latestTraffic w.user_traffic e.user_sk))))

/-- `WHERE s.update_id IS NULL AND s.end_date = '9999-12-31'`: the sales the
incremental fact query reads. -/
def isActiveSale (s : SaleSnap) : Bool :=
  s.update_id == none && s.end_date == OPEN

/-- The incremental-mode `fact_sales` rebuild query (etl.py step 2.6). -/
def factRowsInc (w : Warehouse) (dd : List Int) : List FactRow :=
  (w.sales.filter isActiveSale).flatMap (factRowsFromSaleInc w dd)

/-- The full-mode fact query's joins for one sale row: like the incremental
ones but without the `e.end_date` filter on enrollments. -/
def factRowsFromSaleFull (w : Warehouse) (dd : List Int) (s : SaleSnap) : List FactRow :=
  (w.enrollments.filter (fun e => e.enrollment_sk == s.enrollment_sk)).flatMap
    (fun e =>
      (dd.filter (fun d => d == s.sale_date)).map
        (fun _ => mkFact s e (trafficKeyOf (latestTraffic w.user_traffic e.user_sk))))

/-- The full-load `fact_sales` query (etl.py step 3.6): only
`WHERE s.end_date = '9999-12-31'`, no `update_id` filter. -/
def factRowsFull (w : Warehouse) (dd : List Int) : List FactRow :=
  (w.sales.filter (fun s => s.end_date == OPEN)).flatMap (factRowsFromSaleFull w dd)

-- ───────────────────────── incremental dim refresh ─────────────────────────

/-- Projection of an active users snapshot to its `dim_user` row. -/
def dimUserRowOf (u : UserSnap) : DimUser :=
  { user_key := u.user_sk, user_id := u.user_id, first_name := u.first_name
    last_name := u.last_name, email := u.email, signup_date := u.registered_at
    country := u.country }

/-- Projection of an active courses snapshot to its `dim_course` row. -/
def dimCourseRowOf (c : CourseSnap) : DimCourse :=
  { course_key := c.course_sk, course_id := c.course_id, title := c.title
    subject := c.subject, price_in_rubbles := c.price_in_rubbles
    category := c.category, sub_category := c.sub_category }

/-- Projection of an active traffic-sources snapshot to its
`dim_traffic_source` row. -/
def dimTrafficRowOf (t : TrafficSourceSnap) : DimTraffic :=
  { traffic_source_key := t.traffic_source_sk, traffic_source_id := t.source_id
    name := t.name, channel := t.channel }

/-- Projection of an active sales-managers snapshot to its
`dim_sales_manager` row. -/
def dimManagerRowOf (m : ManagerSnap) : DimManager :=
  { sales_manager_key := m.sales_manager_sk, manager_id := m.manager_id
    first_name := m.first_name, last_name := m.last_name, email := m.email
    hired_at := m.hired_at }

/-- `insert_id = :batch OR update_id = :batch`: the snapshots touched by a
batch (shared shape of all four dim-refresh subqueries). -/
def touchedBy (batch insert_id : Int) (update_id : Option Int) : Bool :=
  insert_id == batch || update_id == some batch

/-- etl.py step 2.1: delete the `dim_user` rows whose key belongs to a users
snapshot touched by the batch, then reinsert from the active touched
snapshots. -/
def refreshDimUser (w : Warehouse) (batch : Int) (d : List DimUser) : List DimUser :=
  (d.filter (fun r =>
      !(w.users.any (fun u => touchedBy batch u.insert_id u.update_id && u.user_sk == r.user_key)))) ++
    ((w.users.filter (fun u => u.end_date == OPEN && touchedBy batch u.insert_id u.update_id)).map
      dimUserRowOf)

/-- etl.py step 2.2: the analogous delete + reinsert for `dim_course`. -/
def refreshDimCourse (w : Warehouse) (batch : Int) (d : List DimCourse) : List DimCourse :=
  (d.filter (fun r =>
      !(w.courses.any (fun c => touchedBy batch c.insert_id c.update_id && c.course_sk == r.course_key)))) ++
    ((w.courses.filter (fun c => c.end_date == OPEN && touchedBy batch c.insert_id c.update_id)).map
      dimCourseRowOf)

/-- etl.py step 2.3: the analogous delete + reinsert for
`dim_traffic_source`. -/
def refreshDimTraffic (w : Warehouse) (batch : Int) (d : List DimTraffic) : List DimTraffic :=
  (d.filter (fun r =>
      !(w.traffic_sources.any
          (fun t => touchedBy batch t.insert_id t.update_id && t.traffic_source_sk == r.traffic_source_key)))) ++
    ((w.traffic_sources.filter
        (fun t => t.end_date == OPEN && touchedBy batch t.insert_id t.update_id)).map
      dimTrafficRowOf)

/-- etl.py step 2.4: the analogous delete + reinsert for
`dim_sales_manager`. -/
def refreshDimManager (w : Warehouse) (batch : Int) (d : List DimManager) : List DimManager :=
  (d.filter (fun r =>
      !(w.sales_managers.any
          (fun m => touchedBy batch m.insert_id m.update_id && m.sales_manager_sk == r.sales_manager_key)))) ++
    ((w.sales_managers.filter
        (fun m => m.end_date == OPEN && touchedBy batch m.insert_id m.update_id)).map
      dimManagerRowOf)

/-- `MIN/MAX(s.sale_date)` over the batch's newly inserted active sales
(etl.py step 2.5's first query). -/
def batchSaleDates (w : Warehouse) (batch : Int) : List Int :=
  (w.sales.filter (fun s => s.insert_id == batch && s.end_date == OPEN)).map
    (fun s => s.sale_date)

/-- etl.py step 2.5: `dim_date` refresh.  Skipped when the batch has no new
sales; otherwise rebuilt over the union of the old range and the batch's
sale-date range, but only when some batch sale date falls outside the
current range (or the table is empty). -/
def dimDateRefresh (w : Warehouse) (batch : Int) (dd : List Int) : List Int :=
  match listMin (batchSaleDates w batch), listMax (batchSaleDates w batch) with
  | some mn, some mx =>
    (match listMin dd, listMax dd with
     | some cmn, some cmx =>
       if mn < cmn ∨ cmx < mx then dateRange (min mn cmn) (max mx cmx) else dd
     | _, _ => dateRange mn mx)
  | _, _ => dd

-- ───────────────────────── the star-schema refresh ─────────────────────────

/-- The committed steps of the star-schema refresh portion of
`run_incremental_load` (etl.py steps 2.0–2.6), in program order; each list
element is one `warehouse_engine.begin()` transaction. -/
def starSteps (w : Warehouse) (batch : Int) : List (StarSchema → StarSchema) :=
  [fun st => { st with fact_sales := [] },
   fun st => { st with dim_user := refreshDimUser w batch st.dim_user },
   fun st => { st with dim_course := refreshDimCourse w batch st.dim_course },
   fun st => { st with dim_traffic_source := refreshDimTraffic w batch st.dim_traffic_source },
   fun st => { st with dim_sales_manager := refreshDimManager w batch st.dim_sales_manager },
   fun st => { st with dim_date := dimDateRefresh w batch st.dim_date },
   fun st => { st with fact_sales := factRowsInc w st.dim_date }]

/-- Run an initial segment of committed steps: the state observable when a
failure interrupts the refresh after `k` commits. -/
def runStepPrefix (w : Warehouse) (batch : Int) (k : Nat) (st : StarSchema) : StarSchema :=
  ((starSteps w batch).take k).foldl (fun s f => f s) st

/-- The whole star-schema refresh portion of `run_incremental_load`
(all seven committed steps). -/
def starRefreshInc (w : Warehouse) (batch : Int) (st : StarSchema) : StarSchema :=
  runStepPrefix w batch 7 st

-- ───────────────────── SCD2 incremental steps: users ─────────────────────

/-- A row of `source.users`. -/
structure SrcUser where
  user_id : Int
  first_name : String
  last_name : String
  email : String
  phone : Option String
  country : String
  registered_at : Int
deriving DecidableEq, Repr

/-- The change predicate of etl.py steps 1.1.b/1.1.c: any tracked attribute
`IS DISTINCT FROM` its active-snapshot value. -/
def userDiffers (s : SrcUser) (w : UserSnap) : Bool :=
  s.first_name != w.first_name || s.last_name != w.last_name ||
  s.email != w.email || s.phone != w.phone || s.country != w.country ||
  s.registered_at != w.registered_at

/-- The snapshot inserted for a source user row (both the brand-new and the
changed-version inserts build exactly this row). -/
def mkUserSnap (s : SrcUser) (sk now batch : Int) : UserSnap :=
  { user_sk := sk, user_id := s.user_id, first_name := s.first_name
    last_name := s.last_name, email := s.email, phone := s.phone
    country := s.country, registered_at := s.registered_at
    start_date := now, end_date := OPEN, source_id := 1
    insert_id := batch, update_id := none }

/-- Serial surrogate-key assignment for a run of inserted user rows. -/
def mkUserRows (now batch : Int) : List SrcUser → Int → List UserSnap
  | [], _ => []
  | s :: rest, sk => mkUserSnap s sk now batch :: mkUserRows now batch rest (sk + 1)

/-- Does `w` hold an active snapshot for this source row's business key?
(the `LEFT JOIN ... WHERE w.user_id IS NULL` anti-join of step 1.1.a). -/
def hasActiveUser (w : List UserSnap) (s : SrcUser) : Bool :=
  w.any (fun r => r.user_id == s.user_id && r.end_date == OPEN)

/-- etl.py step 1.1.a (one transaction): insert brand-new users, i.e. the
source rows with no active warehouse snapshot. -/
def stepNewUsers (src : List SrcUser) (batch now sk : Int) (w : List UserSnap) : List UserSnap :=
  w ++ mkUserRows now batch (src.filter (fun s => !hasActiveUser w s)) sk

/-- The join of etl.py step 1.1.b: one source row per (source row, matching
active differing snapshot) pair. -/
def changedUserRows (src : List SrcUser) (w : List UserSnap) : List SrcUser :=
  src.flatMap (fun s =>
    (w.filter (fun r => r.user_id == s.user_id && r.end_date == OPEN && userDiffers s r)).map
      (fun _ => s))

/-- etl.py step 1.1.b (one transaction): insert new versions for changed
users. -/
def stepChangedUsers (src : List SrcUser) (batch now sk : Int) (w : List UserSnap) : List UserSnap :=
  w ++ mkUserRows now batch (changedUserRows src w) sk

/-- The close predicate of etl.py step 1.1.c: some source row with this
business key differs from the snapshot. -/
def anyDiffUsers (src : List SrcUser) (r : UserSnap) : Bool :=
  src.any (fun s => s.user_id == r.user_id && userDiffers s r)

/-- etl.py step 1.1.c (one transaction): close out every active snapshot
whose tracked attributes differ from its source row. -/
def stepCloseUsers (src : List SrcUser) (batch now : Int) (w : List UserSnap) : List UserSnap :=
  w.map (fun r =>
    if r.end_date == OPEN && anyDiffUsers src r then
      { r with end_date := now, update_id := some batch }
    else r)

/-- The number of inserted rows of step 1.1.a, used to continue the serial
surrogate keys in step 1.1.b. -/
def newUserCount (src : List SrcUser) (w : List UserSnap) : Nat :=
  (src.filter (fun s => !hasActiveUser w s)).length

/-- The full three-transaction users sequence of `run_incremental_load`
(steps 1.1.a, 1.1.b, 1.1.c in program order). -/
def usersIncStep (src : List SrcUser) (batch now sk : Int) (w : List UserSnap) : List UserSnap :=
  stepCloseUsers src batch now
    (stepChangedUsers src batch now (sk + (newUserCount src w : Int))
      (stepNewUsers src batch now sk w))

/-- Number of snapshots of a business key that are currently open. -/
def openCountFor (w : List UserSnap) (k : Int) : Nat :=
  (w.filter (fun r => r.user_id == k && r.end_date == OPEN)).length

/-- The SCD2 invariant: at most one open snapshot per business key. -/
def atMostOneOpen (w : List UserSnap) : Prop :=
  ∀ k : Int, openCountFor w k ≤ 1

/-- The companion invariant: every closed snapshot carries a non-null
`update_id`. -/
def closedHaveUpdateId (w : List UserSnap) : Prop :=
  ∀ r ∈ w, r.end_date ≠ OPEN → r.update_id ≠ none

-- ───────────────────── SCD2 incremental steps: courses ─────────────────────

/-- A row of `source.courses`. -/
structure SrcCourse where
  course_id : Int
  title : String
  subject : String
  description : Option String
  price_in_rubbles : Int
  created_at : Int
  category_id : Int
  subcategory_id : Int
deriving DecidableEq, Repr

/-- A row of `source.categories`. -/
structure SrcCategory where
  category_id : Int
  name : String
deriving DecidableEq, Repr

/-- A row of `source.subcategories`. -/
structure SrcSubcategory where
  subcategory_id : Int
  name : String
deriving DecidableEq, Repr

/-- The category/subcategory lookup joins of the courses SQL: every
`(category name, subcategory name)` pair matching the course row. -/
def catSubNames (cats : List SrcCategory) (subs : List SrcSubcategory)
    (s : SrcCourse) : List (String × String) :=
  (cats.filter (fun c => c.category_id == s.category_id)).flatMap
    (fun c => (subs.filter (fun sc => sc.subcategory_id == s.subcategory_id)).map
      (fun sc => (c.name, sc.name)))

/-- The change predicate of etl.py steps 1.3.b/1.3.c; note `description` is
compared through `COALESCE(x, '')`, so NULL and the empty string are
equal. -/
def courseDiffers (s : SrcCourse) (catName subName : String) (w : CourseSnap) : Bool :=
  s.title != w.title || s.subject != w.subject ||
  coalesceStr s.description != coalesceStr w.description ||
  s.price_in_rubbles != w.price_in_rubbles || s.created_at != w.created_at ||
  catName != w.category || subName != w.sub_category

/-- The snapshot inserted for a source course row. -/
def mkCourseSnap (s : SrcCourse) (catName subName : String) (sk now batch : Int) : CourseSnap :=
  { course_sk := sk, course_id := s.course_id, title := s.title
    subject := s.subject, description := s.description
    price_in_rubbles := s.price_in_rubbles, created_at := s.created_at
    category := catName, sub_category := subName
    start_date := now, end_date := OPEN, source_id := 1
    insert_id := batch, update_id := none }

/-- Serial surrogate-key assignment for a run of inserted course rows. -/
def mkCourseRows (now batch : Int) :
    List (SrcCourse × String × String) → Int → List CourseSnap
  | [], _ => []
  | (s, cn, sn) :: rest, sk => mkCourseSnap s cn sn sk now batch :: mkCourseRows now batch rest (sk + 1)

/-- Does `w` hold an active snapshot for this source course's business key? -/
def hasActiveCourse (w : List CourseSnap) (s : SrcCourse) : Bool :=
  w.any (fun r => r.course_id == s.course_id && r.end_date == OPEN)

/-- etl.py step 1.3.a (one transaction): insert brand-new courses, with the
category/subcategory names looked up through the source joins. -/
def stepNewCourses (src : List SrcCourse) (cats : List SrcCategory) (subs : List SrcSubcategory)
    (batch now sk : Int) (w : List CourseSnap) : List CourseSnap :=
  w ++ mkCourseRows now batch
    ((src.filter (fun s => !hasActiveCourse w s)).flatMap
      (fun s => (catSubNames cats subs s).map (fun p => (s, p.1, p.2)))) sk

/-- The join of etl.py step 1.3.b: one inserted row per (source row, active
differing snapshot, category name, subcategory name) combination. -/
def changedCourseRows (src : List SrcCourse) (cats : List SrcCategory) (subs : List SrcSubcategory)
    (w : List CourseSnap) : List (SrcCourse × String × String) :=
  src.flatMap (fun s =>
    (w.filter (fun r => r.course_id == s.course_id && r.end_date == OPEN)).flatMap
      (fun r => (catSubNames cats subs s).flatMap (fun p =>
        if courseDiffers s p.1 p.2 r then [(s, p.1, p.2)] else [])))

/-- etl.py step 1.3.b (one transaction): insert new versions for changed
courses. -/
def stepChangedCourses (src : List SrcCourse) (cats : List SrcCategory) (subs : List SrcSubcategory)
    (batch now sk : Int) (w : List CourseSnap) : List CourseSnap :=
  w ++ mkCourseRows now batch (changedCourseRows src cats subs w) sk

/-- etl.py step 1.3.c (one transaction): close out every active course
snapshot that differs from its source row (through the same joins). -/
def stepCloseCourses (src : List SrcCourse) (cats : List SrcCategory) (subs : List SrcSubcategory)
    (batch now : Int) (w : List CourseSnap) : List CourseSnap :=
  w.map (fun r =>
    if r.end_date == OPEN &&
        src.any (fun s => s.course_id == r.course_id &&
          (catSubNames cats subs s).any (fun p => courseDiffers s p.1 p.2 r)) then
      { r with end_date := now, update_id := some batch }
    else r)

/-- The full three-transaction courses sequence of `run_incremental_load`
(steps 1.3.a, 1.3.b, 1.3.c in program order). -/
def coursesIncStep (src : List SrcCourse) (cats : List SrcCategory) (subs : List SrcSubcategory)
    (batch now sk sk2 : Int) (w : List CourseSnap) : List CourseSnap :=
  stepCloseCourses src cats subs batch now
    (stepChangedCourses src cats subs batch now sk2
      (stepNewCourses src cats subs batch now sk w))

-- ───────────────────── notification boundary (flows) ─────────────────────

/-- The outcome of the HTTP call inside `send_telegram_message`: the
response's `ok` flag, status and text (the network is an input of the
model). -/
structure TgResponse where
  ok : Bool
  status_code : Int
  text : String
deriving DecidableEq, Repr

/-- Hardcoded bot token of `notifications/telegram.py`. -/
def BOT_TOKEN : String := "7904221180:AAFjagpLXTo8vy5UfmA2MG8s-4Vn3Fc95kg"

/-- Hardcoded chat id of `notifications/telegram.py`. -/
def CHAT_ID : String := "778862180"

/-- `send_telegram_message`: raises on a missing token/chat id and on a
non-ok HTTP response, else returns normally.  Python exceptions are
modelled as `Except.error` carrying the message. -/
def send_telegram_message (resp : TgResponse) : Except String Unit :=
  if BOT_TOKEN = "" || CHAT_ID = "" then
    Except.error "Telegram BOT_TOKEN or CHAT_ID is not set in telegram.py"
  else if resp.ok then Except.ok ()
  else Except.error ("Failed to send Telegram message: " ++ resp.text)

/-- The `try: ... except Exception: pass` wrapper shared by `notify_start`,
`notify_success` and `notify_failure`. -/
def swallowErrors (body : Except String Unit) : Except String Unit :=
  match body with
  | Except.ok _ => Except.ok ()
  | Except.error _ => Except.ok ()

/-- `notify_start` of `flows/etl_flows.py`: send, swallowing any error. -/
def notify_start (resp : TgResponse) : Except String Unit :=
  swallowErrors (send_telegram_message resp)

/-- `notify_success` of `flows/etl_flows.py`. -/
def notify_success (resp : TgResponse) : Except String Unit :=
  swallowErrors (send_telegram_message resp)

/-- `notify_failure` of `flows/etl_flows.py`. -/
def notify_failure (resp : TgResponse) : Except String Unit :=
  swallowErrors (send_telegram_message resp)

/-- The body of `incremental_load_flow`: notify start, run the load (its
outcome `loadResult` is an input of the model), then notify success and
return the message, or notify failure and re-raise the original error.
An exception escaping any notify call would propagate (`Except.error`
branches). -/
def incremental_load_flow (startResp okResp failResp : TgResponse)
    (loadResult : Except String String) : Except String String :=
  match notify_start startResp with
  | Except.error e => Except.error e
  | Except.ok _ =>
    match loadResult with
    | Except.ok msg =>
      match notify_success okResp with
      | Except.error e => Except.error e
      | Except.ok _ => Except.ok msg
    | Except.error e =>
      match notify_failure failResp with
      | Except.error e2 => Except.error e2
      | Except.ok _ => Except.error e

-- ───────────────────────── concrete fixtures ─────────────────────────

/-- Sample active user-traffic row for user 1, referred on day 1 via
source 10, campaign "A". -/
def exUT1 : UserTrafficSnap :=
  { user_traffic_sk := 1, user_sk := 1, traffic_source_sk := 10, referred_at := 1
    campaign_code := some "A", start_date := 0, end_date := OPEN
    source_id_audit := 1, insert_id := 1, update_id := none }

/-- Sample active user-traffic row for user 1, referred later (day 5) via
source 20, campaign "B". -/
def exUT2 : UserTrafficSnap :=
  { user_traffic_sk := 2, user_sk := 1, traffic_source_sk := 20, referred_at := 5
    campaign_code := some "B", start_date := 0, end_date := OPEN
    source_id_audit := 1, insert_id := 1, update_id := none }

/-- Sample active enrollment snapshot for user 1 / course 2. -/
def exEnroll : EnrollSnap :=
  { enrollment_sk := 100, enrollment_id := 10, user_sk := 1, course_sk := 2
    enrolled_at := 3, status := "active", start_date := 0, end_date := OPEN
    source_id := 1, insert_id := 1, update_id := none }

/-- Sample active sale snapshot referencing the sample enrollment. -/
def exSale : SaleSnap :=
  { sale_sk := 500, sale_id := 500, enrollment_sk := 100, sales_manager_sk := 3
    sale_date := 7, cost_in_rubbles := 1000, start_date := 0, end_date := OPEN
    source_id := 1, insert_id := 1, update_id := none }

/-- Sample warehouse: one active sale, its enrollment, and two active
user-traffic rows for the same user. -/
def exWarehouse : Warehouse :=
  { users := [], sales_managers := [], courses := [], enrollments := [exEnroll]
    sales := [exSale], traffic_sources := [], user_traffic := [exUT1, exUT2] }

/-- Empty warehouse. -/
def exWarehouseEmpty : Warehouse :=
  { users := [], sales_managers := [], courses := [], enrollments := []
    sales := [], traffic_sources := [], user_traffic := [] }

/-- The fact row the sample warehouse derives for sale 500 (attributed to
traffic source 20, the later referral). -/
def exFact : FactRow := mkFact exSale exEnroll 20

/-- Sample star schema holding one pre-existing fact row. -/
def exStarWithFact : StarSchema :=
  { dim_user := [], dim_course := [], dim_traffic_source := []
    dim_sales_manager := [], dim_date := [7], fact_sales := [exFact] }

/-- Sample active warehouse snapshot for user 1 ("Alice"). -/
def exUserSnap : UserSnap :=
  { user_sk := 1, user_id := 1, first_name := "Alice", last_name := "A"
    email := "alice@x", phone := none, country := "RU", registered_at := 3
    start_date := 0, end_date := OPEN, source_id := 1, insert_id := 1
    update_id := none }

/-- Sample source row renaming user 1 to "Alicia". -/
def exSrcUser : SrcUser :=
  { user_id := 1, first_name := "Alicia", last_name := "A", email := "alice@x"
    phone := none, country := "RU", registered_at := 3 }

/-- Sample active warehouse snapshot for user 7 ("Bob"). -/
def exUserSnap7 : UserSnap :=
  { user_sk := 7, user_id := 7, first_name := "Bob", last_name := "B"
    email := "bob@x", phone := none, country := "RU", registered_at := 4
    start_date := 0, end_date := OPEN, source_id := 1, insert_id := 1
    update_id := none }

/-- Sample source row renaming user 7 to "Robert". -/
def exSrcUser7 : SrcUser :=
  { user_id := 7, first_name := "Robert", last_name := "B", email := "bob@x"
    phone := none, country := "RU", registered_at := 4 }

/-- Sample active course snapshot whose description is NULL. -/
def exCourseSnap : CourseSnap :=
  { course_sk := 2, course_id := 2, title := "Algebra", subject := "Math"
    description := none, price_in_rubbles := 900, created_at := 2
    category := "Science", sub_category := "Pure", start_date := 0
    end_date := OPEN, source_id := 1, insert_id := 1, update_id := none }

/-- Sample source course equal to `exCourseSnap` except its description is
the empty string instead of NULL. -/
def exSrcCourse : SrcCourse :=
  { course_id := 2, title := "Algebra", subject := "Math"
    description := some "", price_in_rubbles := 900, created_at := 2
    category_id := 30, subcategory_id := 40 }

/-- Sample `source.categories` row. -/
def exCat : SrcCategory := { category_id := 30, name := "Science" }

/-- Sample `source.subcategories` row. -/
def exSub : SrcSubcategory := { subcategory_id := 40, name := "Pure" }

-- ═══════════════════════════ helper lemmas ═══════════════════════════

theorem swallowErrors_ok (b : Except String Unit) : swallowErrors b = Except.ok () := by
  cases b <;> rfl

theorem listFlatMap_congr {α β : Type} {l : List α} {f g : α → List β}
    (h : ∀ a ∈ l, f a = g a) : l.flatMap f = l.flatMap g := by
  induction l with
  | nil => rfl
  | cons a t ih =>
    simp only [List.flatMap_cons]
    rw [h a (List.mem_cons_self a t), ih (fun x hx => h x (List.mem_cons_of_mem a hx))]

-- ═══════════════════════════ C9 ═══════════════════════════

/-- C9: a failure of the notification collaborator never aborts a load:
each of `notify_start`, `notify_success`, `notify_failure` swallows the
Telegram error, and `incremental_load_flow` returns the load's own result
(success or its original error) for every send outcome. -/
theorem notification_failure_never_aborts_load (startResp okResp failResp : TgResponse)
    (loadResult : Except String String) :
    incremental_load_flow startResp okResp failResp loadResult = loadResult ∧
    notify_start startResp = Except.ok () ∧
    notify_success okResp = Except.ok () ∧
    notify_failure failResp = Except.ok () := by
  refine ⟨?_, ?_, ?_, ?_⟩
  · cases loadResult <;>
      simp [incremental_load_flow, notify_start, notify_success, notify_failure,
        swallowErrors_ok]
  · simp [notify_start, swallowErrors_ok]
  · simp [notify_success, swallowErrors_ok]
  · simp [notify_failure, swallowErrors_ok]

-- ═══════════════════════════ C1 ═══════════════════════════

/-- C1: in incremental mode the fact rebuild first deletes every existing
fact row and then rebuilds `fact_sales` from every currently-active
(`update_id IS NULL`, `end_date = '9999-12-31'`) sale snapshot — the
result neither depends on the prior fact contents nor is restricted to
the snapshots touched by the batch: a fact row is present exactly when it
is derived from some active sale snapshot. -/
theorem fact_rebuild_covers_all_active_sales (w : Warehouse) (batch : Int) (st : StarSchema) :
    (starRefreshInc w batch st).fact_sales
        = factRowsInc w (dimDateRefresh w batch st.dim_date) ∧
    ∀ fr : FactRow, fr ∈ (starRefreshInc w batch st).fact_sales ↔
      ∃ s, s ∈ w.sales ∧ s.update_id = none ∧ s.end_date = OPEN ∧
        fr ∈ factRowsFromSaleInc w (dimDateRefresh w batch st.dim_date) s := by
  constructor
  · rfl
  · intro fr
    show fr ∈ factRowsInc w (dimDateRefresh w batch st.dim_date) ↔ _
    simp [factRowsInc, isActiveSale, List.mem_flatMap, List.mem_filter,
      Bool.and_eq_true, beq_iff_eq, and_assoc]

-- ═══════════════════════════ C6 ═══════════════════════════

/-- C6 counterexample: with one pre-existing fact row it is not true that a
failure inside the fact-rebuild portion leaves the fact table's previous
contents: after the first committed step (the separately committed
`DELETE FROM star_schema.fact_sales`), a failure leaves the fact table
empty, not equal to its previous contents. -/
theorem fact_rebuild_not_atomic_counterexample :
    ¬ ((runStepPrefix exWarehouseEmpty 2 1 exStarWithFact).fact_sales
        = exStarWithFact.fact_sales) := by
  decide

/-- C6 amended: a failure inside the fact-rebuild portion of
`run_incremental_load` leaves the fact table either with its previous
contents (if the failure strikes before the delete step commits) or empty
(after the delete commits, through the dim refresh steps, until the final
insert commits) — never a partially rebuilt table, but also not the
previous contents once the delete has committed. -/
theorem fact_rebuild_failure_empty_or_previous (w : Warehouse) (batch : Int)
    (st : StarSchema) (k : Nat) (hk : k ≤ 6) :
    (runStepPrefix w batch k st).fact_sales
      = if k = 0 then st.fact_sales else [] := by
  interval_cases k <;> rfl

/-- Witness for the amended C6 at the concrete failure point just after the
delete step committed. -/
theorem fact_rebuild_failure_empty_or_previous_witness :
    (1 : Nat) ≤ 6 ∧
    (runStepPrefix exWarehouseEmpty 2 1 exStarWithFact).fact_sales
      = if (1 : Nat) = 0 then exStarWithFact.fact_sales else [] :=
  ⟨by decide, fact_rebuild_failure_empty_or_previous exWarehouseEmpty 2 exStarWithFact 1 (by decide)⟩

-- ═══════════════════════════ C10 ═══════════════════════════

/-- C10: over a warehouse state in which every sale and enrollment snapshot
is active (as immediately after a full load), the full-mode fact query and
the incremental-mode fact query produce exactly the same fact rows, even
though the full-mode query omits the `update_id IS NULL` filter on sales
and the `end_date` filter on joined enrollments. -/
theorem full_and_incremental_fact_queries_agree (w : Warehouse) (dd : List Int)
    (hs : ∀ s ∈ w.sales, s.update_id = none ∧ s.end_date = OPEN)
    (he : ∀ e ∈ w.enrollments, e.end_date = OPEN) :
    factRowsFull w dd = factRowsInc w dd := by
  unfold factRowsFull factRowsInc
  have h1 : w.sales.filter (fun s => s.end_date == OPEN) = w.sales.filter isActiveSale := by
    apply List.filter_congr
    intro s hsm
    simp [isActiveSale, (hs s hsm).1, (hs s hsm).2]
  rw [h1]
  apply listFlatMap_congr
  intro s _
  unfold factRowsFromSaleFull factRowsFromSaleInc
  have h2 : w.enrollments.filter (fun e => e.enrollment_sk == s.enrollment_sk)
      = w.enrollments.filter (fun e => e.enrollment_sk == s.enrollment_sk && e.end_date == OPEN) := by
    apply List.filter_congr
    intro e hem
    simp [he e hem]
  rw [h2]

/-- Witness for C10 on the sample all-active warehouse. -/
theorem full_and_incremental_fact_queries_agree_witness :
    (∀ s ∈ exWarehouse.sales, s.update_id = none ∧ s.end_date = OPEN) ∧
    (∀ e ∈ exWarehouse.enrollments, e.end_date = OPEN) ∧
    factRowsFull exWarehouse [7] = factRowsInc exWarehouse [7] :=
  ⟨by decide, by decide,
    full_and_incremental_fact_queries_agree exWarehouse [7] (by decide) (by decide)⟩

-- ═══════════════════ helper lemmas: pickLatest ═══════════════════

theorem pickLatest_eq_none_iff (l : List UserTrafficSnap) :
    pickLatest l = none ↔ l = [] := by
  cases l with
  | nil => simp [pickLatest]
  | cons a rest =>
    simp only [pickLatest]
    cases pickLatest rest with
    | none => simp
    | some u =>
      by_cases h : a.referred_at < u.referred_at <;> simp [h]

theorem pickLatest_mem (l : List UserTrafficSnap) (t : UserTrafficSnap)
    (h : pickLatest l = some t) : t ∈ l := by
  induction l with
  | nil => cases h
  | cons a rest ih =>
    simp only [pickLatest] at h
    cases hr : pickLatest rest with
    | none =>
      rw [hr] at h
      simp only [Option.some.injEq] at h
      subst h
      exact List.mem_cons_self a rest
    | some u =>
      rw [hr] at h
      by_cases hlt : a.referred_at < u.referred_at
      · simp only [if_pos hlt, Option.some.injEq] at h
        subst h
        exact List.mem_cons_of_mem a (ih hr)
      · simp only [if_neg hlt, Option.some.injEq] at h
        subst h
        exact List.mem_cons_self a rest

theorem pickLatest_max (l : List UserTrafficSnap) : ∀ t : UserTrafficSnap,
    pickLatest l = some t → ∀ u ∈ l, u.referred_at ≤ t.referred_at := by
  induction l with
  | nil => intro t h; cases h
  | cons a rest ih =>
    intro t h
    simp only [pickLatest] at h
    cases hr : pickLatest rest with
    | none =>
      rw [hr] at h
      simp only [Option.some.injEq] at h
      subst h
      have hrest : rest = [] := (pickLatest_eq_none_iff rest).1 hr
      subst hrest
      intro u hu
      simp only [List.mem_singleton] at hu
      subst hu
      exact le_refl _
    | some v =>
      rw [hr] at h
      by_cases hlt : a.referred_at < v.referred_at
      · simp only [if_pos hlt, Option.some.injEq] at h
        subst h
        intro u hu
        rcases List.mem_cons.1 hu with hu | hu
        · subst hu; exact le_of_lt hlt
        · exact ih v hr u hu
      · simp only [if_neg hlt, Option.some.injEq] at h
        subst h
        intro u hu
        rcases List.mem_cons.1 hu with hu | hu
        · subst hu; exact le_refl _
        · exact le_trans (ih v hr u hu) (le_of_not_lt hlt)

/-- Attribution behaviour of the `DISTINCT ON` + `COALESCE` combination for
one user: sentinel `-1` when the user has no active traffic rows, else the
surrogate key of an active row with maximal `referred_at`. -/
theorem trafficKey_attribution (uts : List UserTrafficSnap) (usk : Int) :
    (activeTrafficFor uts usk = [] → trafficKeyOf (latestTraffic uts usk) = -1) ∧
    (activeTrafficFor uts usk ≠ [] →
      ∃ ut, ut ∈ activeTrafficFor uts usk ∧
        trafficKeyOf (latestTraffic uts usk) = ut.traffic_source_sk ∧
        ∀ ut2 ∈ activeTrafficFor uts usk, ut2.referred_at ≤ ut.referred_at) := by
  constructor
  · intro hempty
    unfold latestTraffic
    rw [hempty]
    rfl
  · intro hne
    unfold latestTraffic
    cases hp : pickLatest (activeTrafficFor uts usk) with
    | none => exact absurd ((pickLatest_eq_none_iff _).1 hp) hne
    | some t =>
      exact ⟨t, pickLatest_mem _ _ hp, rfl, pickLatest_max _ t hp⟩


-- ═══════════════════════════ C5 ═══════════════════════════

/-- C5: in both the full-mode and the incremental-mode fact query, a fact
row whose user has one or more active UserTraffic rows carries the
traffic-source surrogate key of an active row with maximal `referred_at`;
a user with zero active rows yields the sentinel key `-1`; and the row is
still produced rather than excluded (second conjunct: every active
sale/enrollment pair whose date is in `dim_date` contributes its fact row,
whatever the user-traffic state). -/
theorem fact_traffic_attribution (w : Warehouse) (dd : List Int) (fr : FactRow)
    (hfr : fr ∈ factRowsInc w dd ∨ fr ∈ factRowsFull w dd) :
    ((activeTrafficFor w.user_traffic fr.user_key = [] → fr.traffic_source_key = -1) ∧
     (activeTrafficFor w.user_traffic fr.user_key ≠ [] →
       ∃ ut, ut ∈ activeTrafficFor w.user_traffic fr.user_key ∧
         fr.traffic_source_key = ut.traffic_source_sk ∧
         ∀ ut2 ∈ activeTrafficFor w.user_traffic fr.user_key,
           ut2.referred_at ≤ ut.referred_at)) ∧
    (∀ s e, s ∈ w.sales → isActiveSale s = true → e ∈ w.enrollments →
      e.enrollment_sk = s.enrollment_sk → e.end_date = OPEN → s.sale_date ∈ dd →
      mkFact s e (trafficKeyOf (latestTraffic w.user_traffic e.user_sk))
        ∈ factRowsInc w dd) := by
  constructor
  · have hkey : ∃ e : EnrollSnap, fr.user_key = e.user_sk ∧
        fr.traffic_source_key = trafficKeyOf (latestTraffic w.user_traffic e.user_sk) := by
      rcases hfr with hfr | hfr
      · simp only [factRowsInc, factRowsFromSaleInc, List.mem_flatMap, List.mem_filter,
          List.mem_map] at hfr
        obtain ⟨s, -, e, -, -, -, rfl⟩ := hfr
        exact ⟨e, rfl, rfl⟩
      · simp only [factRowsFull, factRowsFromSaleFull, List.mem_flatMap, List.mem_filter,
          List.mem_map] at hfr
        obtain ⟨s, -, e, -, -, -, rfl⟩ := hfr
        exact ⟨e, rfl, rfl⟩
    obtain ⟨e, hk, ht⟩ := hkey
    rw [hk, ht]
    exact trafficKey_attribution w.user_traffic e.user_sk
  · intro s e hs hact he hesk heend hdd
    simp only [factRowsInc, List.mem_flatMap, List.mem_filter]
    refine ⟨s, ⟨hs, hact⟩, ?_⟩
    simp only [factRowsFromSaleInc, List.mem_flatMap, List.mem_filter, List.mem_map]
    refine ⟨e, ⟨he, by simp [hesk, heend]⟩, s.sale_date, ⟨hdd, by simp⟩, rfl⟩

/-- Witness for C5 on the sample warehouse: sale 500's fact row is
attributed to traffic source 20, the later (day-5) referral of user 1. -/
theorem fact_traffic_attribution_witness :
    (exFact ∈ factRowsInc exWarehouse [7] ∨ exFact ∈ factRowsFull exWarehouse [7]) ∧
    ((activeTrafficFor exWarehouse.user_traffic exFact.user_key = [] →
        exFact.traffic_source_key = -1) ∧
     (activeTrafficFor exWarehouse.user_traffic exFact.user_key ≠ [] →
       ∃ ut, ut ∈ activeTrafficFor exWarehouse.user_traffic exFact.user_key ∧
         exFact.traffic_source_key = ut.traffic_source_sk ∧
         ∀ ut2 ∈ activeTrafficFor exWarehouse.user_traffic exFact.user_key,
           ut2.referred_at ≤ ut.referred_at)) :=
  ⟨Or.inl (by decide),
    (fact_traffic_attribution exWarehouse [7] exFact (Or.inl (by decide))).1⟩

-- ═══════════════════ helper lemmas: listMin / listMax ═══════════════════

theorem listMin_eq_none_iff (l : List Int) : listMin l = none ↔ l = [] := by
  cases l with
  | nil => simp [listMin]
  | cons x xs =>
    simp only [listMin]
    cases listMin xs <;> simp

theorem listMax_eq_none_iff (l : List Int) : listMax l = none ↔ l = [] := by
  cases l with
  | nil => simp [listMax]
  | cons x xs =>
    simp only [listMax]
    cases listMax xs <;> simp

theorem listMin_spec (l : List Int) : ∀ m : Int, listMin l = some m →
    m ∈ l ∧ ∀ x ∈ l, m ≤ x := by
  induction l with
  | nil => intro m h; cases h
  | cons a rest ih =>
    intro m h
    simp only [listMin] at h
    cases hr : listMin rest with
    | none =>
      rw [hr] at h
      simp only [Option.some.injEq] at h
      subst h
      have : rest = [] := (listMin_eq_none_iff rest).1 hr
      subst this
      exact ⟨List.mem_singleton_self a, by intro x hx; simp at hx; omega⟩
    | some m0 =>
      rw [hr] at h
      simp only [Option.some.injEq] at h
      subst h
      obtain ⟨hmem, hle⟩ := ih m0 hr
      constructor
      · rcases le_total a m0 with hc | hc
        · simp [min_eq_left hc]
        · rw [min_eq_right hc]
          exact List.mem_cons_of_mem a hmem
      · intro x hx
        rcases List.mem_cons.1 hx with hx | hx
        · subst hx; exact min_le_left _ _
        · exact le_trans (min_le_right _ _) (hle x hx)

theorem listMax_spec (l : List Int) : ∀ m : Int, listMax l = some m →
    m ∈ l ∧ ∀ x ∈ l, x ≤ m := by
  induction l with
  | nil => intro m h; cases h
  | cons a rest ih =>
    intro m h
    simp only [listMax] at h
    cases hr : listMax rest with
    | none =>
      rw [hr] at h
      simp only [Option.some.injEq] at h
      subst h
      have : rest = [] := (listMax_eq_none_iff rest).1 hr
      subst this
      exact ⟨List.mem_singleton_self a, by intro x hx; simp at hx; omega⟩
    | some m0 =>
      rw [hr] at h
      simp only [Option.some.injEq] at h
      subst h
      obtain ⟨hmem, hle⟩ := ih m0 hr
      constructor
      · rcases le_total a m0 with hc | hc
        · rw [max_eq_right hc]
          exact List.mem_cons_of_mem a hmem
        · simp [max_eq_left hc]
      · intro x hx
        rcases List.mem_cons.1 hx with hx | hx
        · subst hx; exact le_max_left _ _
        · exact le_trans (hle x hx) (le_max_right _ _)

theorem listMin_eq_some (l : List Int) (m : Int) (hmem : m ∈ l)
    (hle : ∀ x ∈ l, m ≤ x) : listMin l = some m := by
  cases hl : listMin l with
  | none =>
    rw [listMin_eq_none_iff] at hl
    subst hl
    cases hmem
  | some m0 =>
    obtain ⟨h0mem, h0le⟩ := listMin_spec l m0 hl
    rw [le_antisymm (hle m0 h0mem) (h0le m hmem)]

theorem listMax_eq_some (l : List Int) (m : Int) (hmem : m ∈ l)
    (hle : ∀ x ∈ l, x ≤ m) : listMax l = some m := by
  cases hl : listMax l with
  | none =>
    rw [listMax_eq_none_iff] at hl
    subst hl
    cases hmem
  | some m0 =>
    obtain ⟨h0mem, h0le⟩ := listMax_spec l m0 hl
    rw [le_antisymm (h0le m hmem) (hle m0 h0mem)]

theorem listMin_le_listMax (l : List Int) (mn mx : Int)
    (h1 : listMin l = some mn) (h2 : listMax l = some mx) : mn ≤ mx := by
  obtain ⟨hmem, _⟩ := listMax_spec l mx h2
  exact (listMin_spec l mn h1).2 mx hmem

theorem mem_dateRange_iff (a b x : Int) (hab : a ≤ b) :
    x ∈ dateRange a b ↔ a ≤ x ∧ x ≤ b := by
  unfold dateRange
  rw [List.mem_map]
  constructor
  · rintro ⟨i, hi, rfl⟩
    rw [List.mem_range] at hi
    omega
  · rintro ⟨h1, h2⟩
    refine ⟨(x - a).toNat, ?_, by omega⟩
    rw [List.mem_range]
    omega

theorem listMin_dateRange (a b : Int) (hab : a ≤ b) :
    listMin (dateRange a b) = some a :=
  listMin_eq_some _ a ((mem_dateRange_iff a b a hab).2 ⟨le_refl a, hab⟩)
    (fun x hx => ((mem_dateRange_iff a b x hab).1 hx).1)

theorem listMax_dateRange (a b : Int) (hab : a ≤ b) :
    listMax (dateRange a b) = some b :=
  listMax_eq_some _ b ((mem_dateRange_iff a b b hab).2 ⟨hab, le_refl b⟩)
    (fun x hx => ((mem_dateRange_iff a b x hab).1 hx).2)

-- ═══════════════════════════ C7 ═══════════════════════════

/-- C7: the Calendar Dimension refresh of an incremental load never shrinks
the date range (the new min is ≤ the old min and the new max ≥ the old
max), and the table is rebuilt only when some incoming batch sale date
falls strictly outside the existing range. -/
theorem calendar_monotonic_extension (w : Warehouse) (batch : Int) (dd : List Int) :
    (∀ cmn cmx, listMin dd = some cmn → listMax dd = some cmx →
      ∃ nmn nmx, listMin (dimDateRefresh w batch dd) = some nmn ∧
        listMax (dimDateRefresh w batch dd) = some nmx ∧ nmn ≤ cmn ∧ cmx ≤ nmx) ∧
    (dimDateRefresh w batch dd ≠ dd →
      ∃ d, d ∈ batchSaleDates w batch ∧
        ∀ cmn cmx, listMin dd = some cmn → listMax dd = some cmx →
          (d < cmn ∨ cmx < d)) := by
  constructor
  · intro cmn cmx h1 h2
    cases hmn : listMin (batchSaleDates w batch) with
    | none =>
      have hempty : batchSaleDates w batch = [] := (listMin_eq_none_iff _).1 hmn
      have hre : dimDateRefresh w batch dd = dd := by
        unfold dimDateRefresh
        rw [hempty]
        rfl
      rw [hre]
      exact ⟨cmn, cmx, h1, h2, le_refl _, le_refl _⟩
    | some mn =>
      obtain ⟨mx, hmx⟩ : ∃ mx, listMax (batchSaleDates w batch) = some mx := by
        cases hmx : listMax (batchSaleDates w batch) with
        | none =>
          rw [listMax_eq_none_iff] at hmx
          rw [hmx] at hmn
          cases hmn
        | some mx => exact ⟨mx, rfl⟩
      have hmnmx : mn ≤ mx := listMin_le_listMax _ _ _ hmn hmx
      cases hcmn : listMin dd with
      | none =>
        rw [hcmn] at h1
        exact Option.noConfusion h1
      | some cmn0 =>
        obtain ⟨cmx0, hcmx⟩ : ∃ cmx0, listMax dd = some cmx0 := by
          cases hcmx : listMax dd with
          | none =>
            rw [listMax_eq_none_iff] at hcmx
            rw [hcmx] at hcmn
            cases hcmn
          | some cmx0 => exact ⟨cmx0, rfl⟩
        rw [hcmn] at h1
        rw [hcmx] at h2
        have h1e : cmn0 = cmn := by injection h1
        have h2e : cmx0 = cmx := by injection h2
        subst h1e
        subst h2e
        by_cases hrb : mn < cmn0 ∨ cmx0 < mx
        · have hab : min mn cmn0 ≤ max mx cmx0 :=
            le_trans (min_le_left _ _) (le_trans hmnmx (le_max_left _ _))
          have hre : dimDateRefresh w batch dd = dateRange (min mn cmn0) (max mx cmx0) := by
            unfold dimDateRefresh
            simp only [hmn, hmx, hcmn, hcmx]
            rw [if_pos hrb]
          rw [hre]
          exact ⟨min mn cmn0, max mx cmx0, listMin_dateRange _ _ hab,
            listMax_dateRange _ _ hab, min_le_right _ _, le_max_right _ _⟩
        · have hre : dimDateRefresh w batch dd = dd := by
            unfold dimDateRefresh
            simp only [hmn, hmx, hcmn, hcmx]
            rw [if_neg hrb]
          rw [hre]
          exact ⟨cmn0, cmx0, hcmn, hcmx, le_refl _, le_refl _⟩
  · intro hne
    cases hmn : listMin (batchSaleDates w batch) with
    | none =>
      exfalso
      apply hne
      have hempty : batchSaleDates w batch = [] := (listMin_eq_none_iff _).1 hmn
      unfold dimDateRefresh
      rw [hempty]
      rfl
    | some mn =>
      obtain ⟨mx, hmx⟩ : ∃ mx, listMax (batchSaleDates w batch) = some mx := by
        cases hmx : listMax (batchSaleDates w batch) with
        | none =>
          rw [listMax_eq_none_iff] at hmx
          rw [hmx] at hmn
          cases hmn
        | some mx => exact ⟨mx, rfl⟩
      have hmnmem : mn ∈ batchSaleDates w batch := (listMin_spec _ _ hmn).1
      have hmxmem : mx ∈ batchSaleDates w batch := (listMax_spec _ _ hmx).1
      cases hcmn : listMin dd with
      | none =>
        refine ⟨mn, hmnmem, ?_⟩
        intro cmn cmx h1 h2
        exact Option.noConfusion h1
      | some cmn0 =>
        obtain ⟨cmx0, hcmx⟩ : ∃ cmx0, listMax dd = some cmx0 := by
          cases hcmx : listMax dd with
          | none =>
            rw [listMax_eq_none_iff] at hcmx
            rw [hcmx] at hcmn
            cases hcmn
          | some cmx0 => exact ⟨cmx0, rfl⟩
        by_cases hrb : mn < cmn0 ∨ cmx0 < mx
        · rcases hrb with hrb | hrb
          · refine ⟨mn, hmnmem, ?_⟩
            intro cmn cmx h1 h2
            have h1e : cmn0 = cmn := by injection h1
            subst h1e
            exact Or.inl hrb
          · refine ⟨mx, hmxmem, ?_⟩
            intro cmn cmx h1 h2
            rw [hcmx] at h2
            have h2e : cmx0 = cmx := by injection h2
            subst h2e
            exact Or.inr hrb
        · exfalso
          apply hne
          unfold dimDateRefresh
          simp only [hmn, hmx, hcmn, hcmx]
          rw [if_neg hrb]

/-- Witness for C7: the sample batch introduces sale date 7 against a
calendar covering days 5..6, and the refreshed range still covers 5..6. -/
theorem calendar_monotonic_extension_witness :
    listMin [(5 : Int), 6] = some 5 ∧ listMax [(5 : Int), 6] = some 6 ∧
    ∃ nmn nmx, listMin (dimDateRefresh exWarehouse 1 [5, 6]) = some nmn ∧
      listMax (dimDateRefresh exWarehouse 1 [5, 6]) = some nmx ∧
      nmn ≤ 5 ∧ 6 ≤ nmx :=
  ⟨by decide, by decide,
    (calendar_monotonic_extension exWarehouse 1 [5, 6]).1 5 6 (by decide) (by decide)⟩

-- ═══════════════════ helper lemmas: refresh idempotence ═══════════════════

theorem filter_false_nil {β : Type} (p : β → Bool) (l : List β)
    (h : ∀ r ∈ l, p r = false) : l.filter p = [] := by
  induction l with
  | nil => rfl
  | cons a t ih =>
    have ha := h a (List.mem_cons_self a t)
    have ht := ih (fun x hx => h x (List.mem_cons_of_mem a hx))
    simp [List.filter_cons, ha, ht]

theorem refresh_append_idem {β : Type} (p : β → Bool) (d dnew : List β)
    (h : ∀ r ∈ dnew, p r = false) :
    (d.filter p ++ dnew).filter p ++ dnew = d.filter p ++ dnew := by
  rw [List.filter_append, List.filter_filter, filter_false_nil p dnew h, List.append_nil]
  congr 1
  apply List.filter_congr
  intro x _
  cases p x <;> rfl

theorem refreshDimUser_idem (w : Warehouse) (batch : Int) (d : List DimUser) :
    refreshDimUser w batch (refreshDimUser w batch d) = refreshDimUser w batch d := by
  unfold refreshDimUser
  apply refresh_append_idem
  intro r hr
  simp only [List.mem_map, List.mem_filter] at hr
  obtain ⟨u, ⟨hu, hcond⟩, rfl⟩ := hr
  simp only [Bool.and_eq_true] at hcond
  simp only [Bool.not_eq_false', List.any_eq_true]
  exact ⟨u, hu, by simp [hcond.2, dimUserRowOf]⟩

theorem refreshDimCourse_idem (w : Warehouse) (batch : Int) (d : List DimCourse) :
    refreshDimCourse w batch (refreshDimCourse w batch d) = refreshDimCourse w batch d := by
  unfold refreshDimCourse
  apply refresh_append_idem
  intro r hr
  simp only [List.mem_map, List.mem_filter] at hr
  obtain ⟨c, ⟨hc, hcond⟩, rfl⟩ := hr
  simp only [Bool.and_eq_true] at hcond
  simp only [Bool.not_eq_false', List.any_eq_true]
  exact ⟨c, hc, by simp [hcond.2, dimCourseRowOf]⟩

theorem refreshDimTraffic_idem (w : Warehouse) (batch : Int) (d : List DimTraffic) :
    refreshDimTraffic w batch (refreshDimTraffic w batch d) = refreshDimTraffic w batch d := by
  unfold refreshDimTraffic
  apply refresh_append_idem
  intro r hr
  simp only [List.mem_map, List.mem_filter] at hr
  obtain ⟨t, ⟨ht, hcond⟩, rfl⟩ := hr
  simp only [Bool.and_eq_true] at hcond
  simp only [Bool.not_eq_false', List.any_eq_true]
  exact ⟨t, ht, by simp [hcond.2, dimTrafficRowOf]⟩

theorem refreshDimManager_idem (w : Warehouse) (batch : Int) (d : List DimManager) :
    refreshDimManager w batch (refreshDimManager w batch d) = refreshDimManager w batch d := by
  unfold refreshDimManager
  apply refresh_append_idem
  intro r hr
  simp only [List.mem_map, List.mem_filter] at hr
  obtain ⟨m, ⟨hm, hcond⟩, rfl⟩ := hr
  simp only [Bool.and_eq_true] at hcond
  simp only [Bool.not_eq_false', List.any_eq_true]
  exact ⟨m, hm, by simp [hcond.2, dimManagerRowOf]⟩

theorem dimDateRefresh_idem (w : Warehouse) (batch : Int) (dd : List Int) :
    dimDateRefresh w batch (dimDateRefresh w batch dd) = dimDateRefresh w batch dd := by
  cases hmn : listMin (batchSaleDates w batch) with
  | none =>
    have hempty : batchSaleDates w batch = [] := (listMin_eq_none_iff _).1 hmn
    unfold dimDateRefresh
    rw [hempty]
    rfl
  | some mn =>
    obtain ⟨mx, hmx⟩ : ∃ mx, listMax (batchSaleDates w batch) = some mx := by
      cases hmx : listMax (batchSaleDates w batch) with
      | none =>
        rw [listMax_eq_none_iff] at hmx
        rw [hmx] at hmn
        cases hmn
      | some mx => exact ⟨mx, rfl⟩
    have hmnmx : mn ≤ mx := listMin_le_listMax _ _ _ hmn hmx
    cases hcmn : listMin dd with
    | none =>
      have hdde : dd = [] := (listMin_eq_none_iff _).1 hcmn
      have hcmx : listMax dd = none := by
        rw [hdde]
        rfl
      have h1 : dimDateRefresh w batch dd = dateRange mn mx := by
        unfold dimDateRefresh
        simp only [hmn, hmx, hcmn, hcmx]
      rw [h1]
      unfold dimDateRefresh
      simp only [hmn, hmx, listMin_dateRange _ _ hmnmx, listMax_dateRange _ _ hmnmx]
      rw [if_neg (by simp [lt_irrefl])]
    | some cmn0 =>
      obtain ⟨cmx0, hcmx⟩ : ∃ cmx0, listMax dd = some cmx0 := by
        cases hcmx : listMax dd with
        | none =>
          rw [listMax_eq_none_iff] at hcmx
          rw [hcmx] at hcmn
          cases hcmn
        | some cmx0 => exact ⟨cmx0, rfl⟩
      by_cases hrb : mn < cmn0 ∨ cmx0 < mx
      · have h1 : dimDateRefresh w batch dd = dateRange (min mn cmn0) (max mx cmx0) := by
          unfold dimDateRefresh
          simp only [hmn, hmx, hcmn, hcmx]
          rw [if_pos hrb]
        have hab : min mn cmn0 ≤ max mx cmx0 :=
          le_trans (min_le_left _ _) (le_trans hmnmx (le_max_left _ _))
        rw [h1]
        unfold dimDateRefresh
        simp only [hmn, hmx, listMin_dateRange _ _ hab, listMax_dateRange _ _ hab]
        rw [if_neg (not_or.2 ⟨not_lt.2 (min_le_left _ _), not_lt.2 (le_max_left _ _)⟩)]
      · have h1 : dimDateRefresh w batch dd = dd := by
          unfold dimDateRefresh
          simp only [hmn, hmx, hcmn, hcmx]
          rw [if_neg hrb]
        rw [h1]
        exact h1

/-- The closed form of the seven committed star-schema refresh steps. -/
theorem starRefreshInc_eq (w : Warehouse) (batch : Int) (st : StarSchema) :
    starRefreshInc w batch st =
      { dim_user := refreshDimUser w batch st.dim_user
        dim_course := refreshDimCourse w batch st.dim_course
        dim_traffic_source := refreshDimTraffic w batch st.dim_traffic_source
        dim_sales_manager := refreshDimManager w batch st.dim_sales_manager
        dim_date := dimDateRefresh w batch st.dim_date
        fact_sales := factRowsInc w (dimDateRefresh w batch st.dim_date) } := rfl

-- ═══════════════════════════ C3 ═══════════════════════════

/-- C3: re-running the star-schema refresh portion of
`run_incremental_load` for the same batch, with the warehouse snapshot
tables unchanged in between, produces identical fact and dimension
tables: the refresh is idempotent. -/
theorem star_refresh_idempotent (w : Warehouse) (batch : Int) (st : StarSchema) :
    starRefreshInc w batch (starRefreshInc w batch st) = starRefreshInc w batch st := by
  simp only [starRefreshInc_eq]
  simp only [StarSchema.mk.injEq]
  refine ⟨refreshDimUser_idem w batch st.dim_user,
    refreshDimCourse_idem w batch st.dim_course,
    refreshDimTraffic_idem w batch st.dim_traffic_source,
    refreshDimManager_idem w batch st.dim_sales_manager,
    dimDateRefresh_idem w batch st.dim_date, ?_⟩
  rw [dimDateRefresh_idem w batch st.dim_date]

-- ═══════════════════ helper lemmas: course steps ═══════════════════

theorem map_id_on {β : Type} (f : β → β) (l : List β) (h : ∀ a ∈ l, f a = a) :
    l.map f = l := by
  induction l with
  | nil => rfl
  | cons a t ih =>
    rw [List.map_cons, h a (List.mem_cons_self a t),
      ih (fun x hx => h x (List.mem_cons_of_mem a hx))]

theorem filter_key_map_comm (f : CourseSnap → CourseSnap)
    (hf : ∀ r, (f r).course_id = r.course_id) (k : Int) (l : List CourseSnap) :
    (l.map f).filter (fun r => r.course_id == k) =
      (l.filter (fun r => r.course_id == k)).map f := by
  induction l with
  | nil => rfl
  | cons a t ih =>
    simp only [List.map_cons, List.filter_cons, hf a, ih]
    cases h : a.course_id == k <;> simp [h]

theorem mkCourseRows_mem (now batch : Int) :
    ∀ (l : List (SrcCourse × String × String)) (sk : Int) (r : CourseSnap),
      r ∈ mkCourseRows now batch l sk →
      ∃ t ∈ l, r.course_id = t.1.course_id ∧ r.end_date = OPEN := by
  intro l
  induction l with
  | nil => intro sk r h; cases h
  | cons t rest ih =>
    intro sk r h
    obtain ⟨s, cn, sn⟩ := t
    simp only [mkCourseRows] at h
    rcases List.mem_cons.1 h with h | h
    · subst h
      exact ⟨(s, cn, sn), List.mem_cons_self _ _, rfl, rfl⟩
    · obtain ⟨t2, ht2, he⟩ := ih (sk + 1) r h
      exact ⟨t2, List.mem_cons_of_mem _ ht2, he⟩

theorem mkCourseRows_key_nil (now batch k : Int) :
    ∀ (l : List (SrcCourse × String × String)) (sk : Int),
      (∀ t ∈ l, t.1.course_id ≠ k) →
      (mkCourseRows now batch l sk).filter (fun r => r.course_id == k) = [] := by
  intro l
  induction l with
  | nil => intro sk _; rfl
  | cons t rest ih =>
    intro sk h
    obtain ⟨s, cn, sn⟩ := t
    have hhead : ((mkCourseSnap s cn sn sk now batch).course_id == k) = false := by
      have hne := h (s, cn, sn) (List.mem_cons_self _ _)
      simpa [mkCourseSnap] using hne
    simp only [mkCourseRows, List.filter_cons, hhead]
    simpa using ih (sk + 1) (fun t2 ht2 => h t2 (List.mem_cons_of_mem _ ht2))

-- ═══════════════════════════ C8 ═══════════════════════════

/-- C8: change detection for courses compares `description` through
`COALESCE(x, '')`, so a course whose source row agrees with its active
snapshot on every tracked attribute, with `description` possibly differing
only as NULL versus empty string, is classified Unchanged: the incremental
courses sequence neither closes the active snapshot nor inserts any new
version for that business key (the key's rows are untouched). -/
theorem null_empty_description_unchanged
    (src : List SrcCourse) (cats : List SrcCategory) (subs : List SrcSubcategory)
    (batch now sk sk2 : Int) (w : List CourseSnap) (s : SrcCourse) (r0 : CourseSnap)
    (hs : s ∈ src)
    (hkeys : (src.map (fun x => x.course_id)).Nodup)
    (hr0 : r0 ∈ w) (hopen : r0.end_date = OPEN) (hkey : r0.course_id = s.course_id)
    (huniq : ∀ r ∈ w, r.course_id = s.course_id → r.end_date = OPEN → r = r0)
    (hcat : ∀ p ∈ catSubNames cats subs s, p.1 = r0.category ∧ p.2 = r0.sub_category)
    (htitle : s.title = r0.title) (hsubj : s.subject = r0.subject)
    (hprice : s.price_in_rubbles = r0.price_in_rubbles)
    (hcreated : s.created_at = r0.created_at)
    (hdesc : coalesceStr s.description = coalesceStr r0.description) :
    (coursesIncStep src cats subs batch now sk sk2 w).filter
        (fun r => r.course_id == s.course_id)
      = w.filter (fun r => r.course_id == s.course_id) := by
  have keyInj : ∀ s2 ∈ src, s2.course_id = s.course_id → s2 = s := by
    intro s2 hs2 he
    exact List.inj_on_of_nodup_map hkeys hs2 hs he
  have hdiff_false : ∀ p ∈ catSubNames cats subs s,
      courseDiffers s p.1 p.2 r0 = false := by
    intro p hp
    obtain ⟨h1, h2⟩ := hcat p hp
    simp [courseDiffers, htitle, hsubj, hprice, hcreated, hdesc, h1, h2]
  have hasAct : hasActiveCourse w s = true := by
    simp only [hasActiveCourse, List.any_eq_true]
    exact ⟨r0, hr0, by simp [hkey, hopen]⟩
  have hA : ∀ t ∈ (src.filter (fun x => !hasActiveCourse w x)).flatMap
      (fun x => (catSubNames cats subs x).map (fun p => (x, p.1, p.2))),
      t.1.course_id ≠ s.course_id := by
    intro t ht
    simp only [List.mem_flatMap, List.mem_filter, List.mem_map] at ht
    obtain ⟨s2, ⟨hs2, hact2⟩, p, hp, rfl⟩ := ht
    intro hkeq
    have hs2s := keyInj s2 hs2 hkeq
    subst hs2s
    simp [hasAct] at hact2
  have hW1filter : (stepNewCourses src cats subs batch now sk w).filter
      (fun r => r.course_id == s.course_id) = w.filter (fun r => r.course_id == s.course_id) := by
    unfold stepNewCourses
    rw [List.filter_append, mkCourseRows_key_nil now batch s.course_id _ sk hA,
      List.append_nil]
  have huniq1 : ∀ r ∈ stepNewCourses src cats subs batch now sk w,
      r.course_id = s.course_id → r.end_date = OPEN → r = r0 := by
    intro r hr hk ho
    unfold stepNewCourses at hr
    rcases List.mem_append.1 hr with hr | hr
    · exact huniq r hr hk ho
    · obtain ⟨t, ht, he, -⟩ := mkCourseRows_mem now batch _ sk r hr
      exact absurd (he.symm.trans hk) (hA t ht)
  have hB : ∀ t ∈ changedCourseRows src cats subs
      (stepNewCourses src cats subs batch now sk w),
      t.1.course_id ≠ s.course_id := by
    intro t ht
    simp only [changedCourseRows, List.mem_flatMap, List.mem_filter] at ht
    obtain ⟨s2, hs2, r, ⟨hrmem, hrcond⟩, p, hp, htif⟩ := ht
    by_cases hdif : courseDiffers s2 p.1 p.2 r = true
    · rw [if_pos hdif] at htif
      simp only [List.mem_singleton] at htif
      subst htif
      intro hkeq
      have hs2s := keyInj s2 hs2 hkeq
      subst hs2s
      simp only [Bool.and_eq_true, beq_iff_eq] at hrcond
      have hr0e : r = r0 :=
        huniq1 r hrmem (hrcond.1.trans hkeq) hrcond.2
      subst hr0e
      rw [hdiff_false p hp] at hdif
      cases hdif
    · rw [if_neg hdif] at htif
      cases htif
  have hW2filter : (stepChangedCourses src cats subs batch now sk2
      (stepNewCourses src cats subs batch now sk w)).filter
        (fun r => r.course_id == s.course_id)
      = w.filter (fun r => r.course_id == s.course_id) := by
    unfold stepChangedCourses
    rw [List.filter_append, mkCourseRows_key_nil now batch s.course_id _ sk2 hB,
      List.append_nil, hW1filter]
  have hpreserve : ∀ r : CourseSnap,
      ((if r.end_date == OPEN && src.any (fun s2 => s2.course_id == r.course_id &&
          (catSubNames cats subs s2).any (fun p => courseDiffers s2 p.1 p.2 r)) then
        { r with end_date := now, update_id := some batch } else r) : CourseSnap).course_id
        = r.course_id := by
    intro r
    split <;> rfl
  have hclose_id : ∀ r ∈ w.filter (fun r => r.course_id == s.course_id),
      (if r.end_date == OPEN && src.any (fun s2 => s2.course_id == r.course_id &&
          (catSubNames cats subs s2).any (fun p => courseDiffers s2 p.1 p.2 r)) then
        { r with end_date := now, update_id := some batch } else r) = r := by
    intro r hr
    rw [List.mem_filter] at hr
    obtain ⟨hrw, hrk⟩ := hr
    have hrkey : r.course_id = s.course_id := by simpa using hrk
    by_cases ho : r.end_date = OPEN
    · have hr0e : r = r0 := huniq r hrw hrkey ho
      subst hr0e
      rw [if_neg]
      intro hcond
      simp only [Bool.and_eq_true, List.any_eq_true, beq_iff_eq] at hcond
      obtain ⟨-, s2, hs2, hk2, p, hp, hdif⟩ := hcond
      have hs2s : s2 = s := keyInj s2 hs2 (hk2.trans hrkey)
      subst hs2s
      rw [hdiff_false p hp] at hdif
      cases hdif
    · rw [if_neg]
      intro hcond
      simp only [Bool.and_eq_true, beq_iff_eq] at hcond
      exact ho hcond.1
  unfold coursesIncStep stepCloseCourses
  rw [filter_key_map_comm _ hpreserve s.course_id _, hW2filter]
  exact map_id_on _ _ hclose_id

/-- Witness for C8: course 2's source description is the empty string while
the active snapshot's is NULL; the whole incremental courses sequence
leaves the key's rows untouched. -/
theorem null_empty_description_unchanged_witness :
    exSrcCourse.description ≠ exCourseSnap.description ∧
    coalesceStr exSrcCourse.description = coalesceStr exCourseSnap.description ∧
    (coursesIncStep [exSrcCourse] [exCat] [exSub] 2 5 10 11 [exCourseSnap]).filter
        (fun r => r.course_id == exSrcCourse.course_id)
      = [exCourseSnap].filter (fun r => r.course_id == exSrcCourse.course_id) :=
  ⟨by decide, by decide,
    null_empty_description_unchanged [exSrcCourse] [exCat] [exSub] 2 5 10 11
      [exCourseSnap] exSrcCourse exCourseSnap (by decide) (by decide) (by decide)
      (by decide) (by decide) (by decide) (by decide) (by decide) (by decide)
      (by decide) (by decide) (by decide)⟩

-- ═══════════════════ helper lemmas: users steps ═══════════════════

theorem openCountFor_append (l1 l2 : List UserSnap) (k : Int) :
    openCountFor (l1 ++ l2) k = openCountFor l1 k + openCountFor l2 k := by
  simp [openCountFor, List.filter_append]

theorem userDiffers_mkUserSnap (s : SrcUser) (sk now batch : Int) :
    userDiffers s (mkUserSnap s sk now batch) = false := by
  simp [userDiffers, mkUserSnap]

theorem mkUserRows_mem_src (now batch : Int) :
    ∀ (l : List SrcUser) (sk : Int) (r : UserSnap), r ∈ mkUserRows now batch l sk →
      ∃ s2 ∈ l, ∃ sk2 : Int, r = mkUserSnap s2 sk2 now batch := by
  intro l
  induction l with
  | nil => intro sk r h; cases h
  | cons s2 rest ih =>
    intro sk r h
    simp only [mkUserRows] at h
    rcases List.mem_cons.1 h with h | h
    · exact ⟨s2, List.mem_cons_self _ _, sk, h⟩
    · obtain ⟨s3, hs3, sk3, he⟩ := ih (sk + 1) r h
      exact ⟨s3, List.mem_cons_of_mem _ hs3, sk3, he⟩

theorem mkUserRows_mem_intro (now batch : Int) :
    ∀ (l : List SrcUser) (sk : Int) (s2 : SrcUser), s2 ∈ l →
      ∃ sk2 : Int, mkUserSnap s2 sk2 now batch ∈ mkUserRows now batch l sk := by
  intro l
  induction l with
  | nil => intro sk s2 h; cases h
  | cons s3 rest ih =>
    intro sk s2 h
    rcases List.mem_cons.1 h with h | h
    · subst h
      exact ⟨sk, by simp only [mkUserRows]; exact List.mem_cons_self _ _⟩
    · obtain ⟨sk2, hm⟩ := ih (sk + 1) s2 h
      exact ⟨sk2, by simp only [mkUserRows]; exact List.mem_cons_of_mem _ hm⟩

theorem openCountFor_mkUserRows (now batch k : Int) :
    ∀ (l : List SrcUser) (sk : Int),
      openCountFor (mkUserRows now batch l sk) k
        = (l.filter (fun s => s.user_id == k)).length := by
  intro l
  induction l with
  | nil => intro sk; rfl
  | cons s2 rest ih =>
    intro sk
    simp only [openCountFor, mkUserRows, List.filter_cons] at ih ⊢
    have hcond : ((mkUserSnap s2 sk now batch).user_id == k
        && ((mkUserSnap s2 sk now batch).end_date == OPEN)) = (s2.user_id == k) := by
      simp [mkUserSnap]
    rw [hcond]
    cases h : s2.user_id == k <;> simp [h, ih (sk + 1)]

theorem length_filter_split (l : List UserSnap) (p d : UserSnap → Bool) :
    (l.filter (fun r => p r && !d r)).length + (l.filter (fun r => p r && d r)).length
      = (l.filter p).length := by
  induction l with
  | nil => rfl
  | cons a t ih =>
    simp only [List.filter_cons]
    cases hp : p a <;> cases hd : d a <;> simp [hp, hd] <;> omega

theorem length_filter_mono {α : Type} (p q : α → Bool) (l : List α)
    (h : ∀ a ∈ l, p a = true → q a = true) :
    (l.filter p).length ≤ (l.filter q).length := by
  induction l with
  | nil => exact le_refl _
  | cons a t ih =>
    have iht := ih (fun x hx => h x (List.mem_cons_of_mem a hx))
    simp only [List.filter_cons]
    cases hp : p a
    · cases hq : q a <;> simp [hp, hq] <;> omega
    · have hq := h a (List.mem_cons_self a t) hp
      simp [hp, hq]
      omega

theorem filter_comm {α : Type} (p q : α → Bool) (l : List α) :
    (l.filter p).filter q = (l.filter q).filter p := by
  rw [List.filter_filter, List.filter_filter]
  apply List.filter_congr
  intro x _
  cases p x <;> cases q x <;> rfl

theorem openCountFor_close (src : List SrcUser) (batch now k : Int) (hnow : now ≠ OPEN)
    (l : List UserSnap) :
    openCountFor (stepCloseUsers src batch now l) k
      = (l.filter (fun r => (r.user_id == k && r.end_date == OPEN)
          && !anyDiffUsers src r)).length := by
  induction l with
  | nil => rfl
  | cons r rest ih =>
    have hcons : stepCloseUsers src batch now (r :: rest)
        = (if r.end_date == OPEN && anyDiffUsers src r then
            { r with end_date := now, update_id := some batch } else r)
          :: stepCloseUsers src batch now rest := rfl
    unfold openCountFor at ih ⊢
    rw [hcons]
    by_cases ho : r.end_date = OPEN
    · by_cases hd : anyDiffUsers src r = true
      · rw [if_pos (by simp [ho, hd])]
        rw [List.filter_cons_of_neg (by simp [hnow]),
          List.filter_cons_of_neg (by simp [hd])]
        exact ih
      · have hd2 : anyDiffUsers src r = false := by
          revert hd
          cases anyDiffUsers src r <;> simp
        rw [if_neg (by simp [hd2])]
        by_cases hk : r.user_id = k
        · rw [List.filter_cons_of_pos (by simp [hk, ho]),
            List.filter_cons_of_pos (by simp [hk, ho, hd2])]
          simp only [List.length_cons]
          rw [ih]
        · rw [List.filter_cons_of_neg (by simp [hk]),
            List.filter_cons_of_neg (by simp [hk])]
          exact ih
    · rw [if_neg (by simp [ho])]
      rw [List.filter_cons_of_neg (by simp [ho]),
        List.filter_cons_of_neg (by simp [ho])]
      exact ih

theorem length_filter_map_const {α : Type} (c : SrcUser) (k : Int) :
    ∀ l : List α,
      (((l.map (fun _ => c)).filter (fun x => x.user_id == k)).length)
        = if c.user_id == k then l.length else 0 := by
  intro l
  induction l with
  | nil => simp
  | cons a t ih =>
    simp only [List.map_cons, List.filter_cons] at ih ⊢
    cases h : c.user_id == k
    · simp [h] at ih ⊢
    · simp [h] at ih ⊢

theorem changedUserRows_key_count (w : List UserSnap) (k : Int) :
    ∀ src : List SrcUser,
      ((changedUserRows src w).filter (fun x => x.user_id == k)).length
        = ((src.filter (fun x => x.user_id == k)).map (fun s =>
            (w.filter (fun r => r.user_id == s.user_id && r.end_date == OPEN
              && userDiffers s r)).length)).sum := by
  intro src
  induction src with
  | nil => rfl
  | cons s2 rest ih =>
    have hcons : changedUserRows (s2 :: rest) w
        = (w.filter (fun r => r.user_id == s2.user_id && r.end_date == OPEN
            && userDiffers s2 r)).map (fun _ => s2) ++ changedUserRows rest w := rfl
    rw [hcons, List.filter_append, List.length_append, ih, length_filter_map_const s2 k,
      List.filter_cons]
    cases h : s2.user_id == k
    · simp [h]
    · simp [h]

theorem changedUserRows_mem_src (src : List SrcUser) (w : List UserSnap) (x : SrcUser)
    (h : x ∈ changedUserRows src w) : x ∈ src := by
  simp only [changedUserRows, List.mem_flatMap, List.mem_map] at h
  obtain ⟨s2, hs2, a, ha, rfl⟩ := h
  exact hs2

theorem src_filter_key_singleton :
    ∀ (l : List SrcUser) (s : SrcUser), (l.map (fun x => x.user_id)).Nodup → s ∈ l →
      l.filter (fun x => x.user_id == s.user_id) = [s] := by
  intro l
  induction l with
  | nil => intro s _ h; cases h
  | cons a t ih =>
    intro s hnd hs
    rw [List.map_cons, List.nodup_cons] at hnd
    obtain ⟨hna, hndt⟩ := hnd
    rcases List.mem_cons.1 hs with rfl | hs
    · rw [List.filter_cons_of_pos (by simp)]
      have htail : t.filter (fun x => x.user_id == s.user_id) = [] := by
        apply filter_false_nil
        intro x hx
        simp only [beq_eq_false_iff_ne]
        intro he
        apply hna
        rw [← he]
        exact List.mem_map_of_mem _ hx
      rw [htail]
    · have hne : (a.user_id == s.user_id) = false := by
        simp only [beq_eq_false_iff_ne]
        intro he
        apply hna
        rw [he]
        exact List.mem_map_of_mem _ hs
      rw [List.filter_cons_of_neg (by simp [hne])]
      exact ih s hndt hs

theorem anyDiffUsers_eq_userDiffers (src : List SrcUser) (s : SrcUser) (r : UserSnap)
    (hs : s ∈ src) (hkeyr : r.user_id = s.user_id)
    (huniqk : ∀ s2 ∈ src, s2.user_id = s.user_id → s2 = s) :
    anyDiffUsers src r = userDiffers s r := by
  cases hd : userDiffers s r
  · simp only [anyDiffUsers]
    rw [List.any_eq_false]
    intro s2 hs2
    by_cases hk2 : s2.user_id = r.user_id
    · have hs2s : s2 = s := huniqk s2 hs2 (hk2.trans hkeyr)
      subst hs2s
      simp [hd]
    · simp [hk2]
  · simp only [anyDiffUsers, List.any_eq_true]
    exact ⟨s, hs, by simp [hkeyr, hd]⟩

theorem openCountFor_eq_zero_of_not_active (w : List UserSnap) (s : SrcUser)
    (h : hasActiveUser w s = false) : openCountFor w s.user_id = 0 := by
  unfold openCountFor
  have hnil : w.filter (fun r => r.user_id == s.user_id && r.end_date == OPEN) = [] := by
    apply filter_false_nil
    intro r hr
    cases hc : (r.user_id == s.user_id && r.end_date == OPEN)
    · rfl
    · exfalso
      have hact : hasActiveUser w s = true := by
        simp only [hasActiveUser, List.any_eq_true]
        exact ⟨r, hr, hc⟩
      rw [h] at hact
      cases hact
  rw [hnil]
  rfl

theorem atMostOneOpen_singleton (r : UserSnap) : atMostOneOpen [r] := by
  intro k
  unfold openCountFor
  simp only [List.filter]
  cases h : (r.user_id == k && r.end_date == OPEN) <;> simp [h]

theorem filter_q_mkUserRows (src : List SrcUser) (s : SrcUser) (now batch : Int)
    (hs : s ∈ src)
    (huniqk : ∀ s2 ∈ src, s2.user_id = s.user_id → s2 = s) :
    ∀ (l : List SrcUser) (sk : Int), (∀ x ∈ l, x ∈ src) →
      ((mkUserRows now batch l sk).filter (fun r => (r.user_id == s.user_id
          && r.end_date == OPEN) && !anyDiffUsers src r)).length
        = (l.filter (fun x => x.user_id == s.user_id)).length := by
  intro l sk hsub
  have hcongr : (mkUserRows now batch l sk).filter (fun r => (r.user_id == s.user_id
        && r.end_date == OPEN) && !anyDiffUsers src r)
      = (mkUserRows now batch l sk).filter
          (fun r => r.user_id == s.user_id && r.end_date == OPEN) := by
    apply List.filter_congr
    intro r hr
    obtain ⟨s2, hs2l, sk2, rfl⟩ := mkUserRows_mem_src now batch l sk r hr
    by_cases hk2 : s2.user_id = s.user_id
    · obtain rfl := huniqk s2 (hsub s2 hs2l) hk2
      have had : anyDiffUsers src (mkUserSnap s2 sk2 now batch) = false := by
        rw [anyDiffUsers_eq_userDiffers src s2 _ hs rfl huniqk]
        exact userDiffers_mkUserSnap s2 sk2 now batch
      simp [had]
    · simp [mkUserSnap, hk2]
  rw [hcongr]
  have hcount := openCountFor_mkUserRows now batch s.user_id l sk
  unfold openCountFor at hcount
  exact hcount

theorem mkUserRows_changedpred_nil (src : List SrcUser) (s : SrcUser) (now batch : Int)
    (huniqk : ∀ s2 ∈ src, s2.user_id = s.user_id → s2 = s) :
    ∀ (l : List SrcUser) (sk : Int), (∀ x ∈ l, x ∈ src) →
      ((mkUserRows now batch l sk).filter (fun r => r.user_id == s.user_id
          && r.end_date == OPEN && userDiffers s r)) = [] := by
  intro l sk hsub
  apply filter_false_nil
  intro r hr
  obtain ⟨s2, hs2l, sk2, rfl⟩ := mkUserRows_mem_src now batch l sk r hr
  by_cases hk2 : s2.user_id = s.user_id
  · obtain rfl := huniqk s2 (hsub s2 hs2l) hk2
    simp [userDiffers_mkUserSnap]
  · simp [mkUserSnap, hk2]

-- ═══════════════════════════ C2 ═══════════════════════════

/-- C2 counterexample: the invariant does not hold at every point in time.
Between the separately committed changed-insert step (1.1.b) and the close
step (1.1.c), business key 1 has two snapshots with
`end_date = '9999-12-31'` simultaneously, so the at-most-one-open bound is
violated at that observable point. -/
theorem at_most_one_open_counterexample :
    ¬ (openCountFor
        (stepChangedUsers [exSrcUser] 2 5 2
          (stepNewUsers [exSrcUser] 2 5 1 [exUserSnap])) 1 ≤ 1) := by
  decide

/-- C2 amended: the at-most-one-open invariant holds at the boundaries of
each entity type's three-step sequence, not at every intermediate point:
if it holds before the users sequence of an incremental load and the
source business keys are unique, then after the close step (1.1.c)
commits, every key again has at most one open snapshot and every closed
snapshot carries a non-null `update_batch_id`; between steps 1.1.b and
1.1.c a changed key transiently has two open snapshots. -/
theorem at_most_one_open_after_users_sequence
    (src : List SrcUser) (batch now sk : Int) (w : List UserSnap)
    (hinv : atMostOneOpen w)
    (hclosed : closedHaveUpdateId w)
    (hkeys : (src.map (fun x => x.user_id)).Nodup)
    (hnow : now ≠ OPEN) :
    atMostOneOpen (usersIncStep src batch now sk w) ∧
    closedHaveUpdateId (usersIncStep src batch now sk w) := by
  constructor
  · intro k
    unfold usersIncStep
    rw [openCountFor_close src batch now k hnow]
    have hW2 : stepChangedUsers src batch now (sk + (newUserCount src w : Int))
          (stepNewUsers src batch now sk w)
        = stepNewUsers src batch now sk w
          ++ mkUserRows now batch
              (changedUserRows src (stepNewUsers src batch now sk w))
              (sk + (newUserCount src w : Int)) := rfl
    have hW1 : stepNewUsers src batch now sk w
        = w ++ mkUserRows now batch (src.filter (fun x => !hasActiveUser w x)) sk := rfl
    rw [hW2, hW1, List.filter_append, List.filter_append, List.length_append,
      List.length_append]
    by_cases hks : ∃ s, s ∈ src ∧ s.user_id = k
    · obtain ⟨s, hs, hk⟩ := hks
      subst hk
      have huniqk : ∀ s2 ∈ src, s2.user_id = s.user_id → s2 = s := by
        intro s2 hs2 he
        exact List.inj_on_of_nodup_map hkeys hs2 hs he
      have hN := filter_q_mkUserRows src s now batch hs huniqk
        (src.filter (fun x => !hasActiveUser w x)) sk
        (fun x hx => (List.mem_filter.1 hx).1)
      have hC := filter_q_mkUserRows src s now batch hs huniqk
        (changedUserRows src (w ++ mkUserRows now batch
          (src.filter (fun x => !hasActiveUser w x)) sk))
        (sk + (newUserCount src w : Int))
        (fun x hx => changedUserRows_mem_src src _ x hx)
      rw [hN, hC]
      rw [changedUserRows_key_count _ s.user_id src,
        src_filter_key_singleton src s hkeys hs]
      simp only [List.map_cons, List.map_nil, List.sum_cons, List.sum_nil, Nat.add_zero]
      rw [List.filter_append, List.length_append]
      rw [mkUserRows_changedpred_nil src s now batch huniqk _ sk
        (fun x hx => (List.mem_filter.1 hx).1)]
      simp only [List.length_nil, Nat.add_zero]
      have hw : (w.filter (fun r => (r.user_id == s.user_id && r.end_date == OPEN)
            && !anyDiffUsers src r)).length
          = (w.filter (fun r => (r.user_id == s.user_id && r.end_date == OPEN)
              && !userDiffers s r)).length := by
        congr 1
        apply List.filter_congr
        intro r hr
        by_cases hk2 : r.user_id = s.user_id
        · rw [anyDiffUsers_eq_userDiffers src s r hs hk2 huniqk]
        · have h1 : (r.user_id == s.user_id) = false := by
            simp [hk2]
          simp [h1]
      rw [hw]
      have hsplit := length_filter_split w
        (fun r => r.user_id == s.user_id && r.end_date == OPEN)
        (fun r => userDiffers s r)
      have hwinv : (w.filter (fun r => r.user_id == s.user_id
          && r.end_date == OPEN)).length ≤ 1 := hinv s.user_id
      by_cases hact : hasActiveUser w s = true
      · have hsrcNew : (src.filter (fun x => !hasActiveUser w x)).filter
            (fun x => x.user_id == s.user_id) = [] := by
          rw [filter_comm, src_filter_key_singleton src s hkeys hs]
          simp [hact]
        rw [hsrcNew]
        simp only [List.length_nil]
        omega
      · have hactf : hasActiveUser w s = false := by
          revert hact
          cases hasActiveUser w s <;> simp
        have hsrcNew : (src.filter (fun x => !hasActiveUser w x)).filter
            (fun x => x.user_id == s.user_id) = [s] := by
          rw [filter_comm, src_filter_key_singleton src s hkeys hs]
          simp [hactf]
        rw [hsrcNew]
        have hopen0 : openCountFor w s.user_id = 0 :=
          openCountFor_eq_zero_of_not_active w s hactf
        unfold openCountFor at hopen0
        have hmono1 : (w.filter (fun r => (r.user_id == s.user_id && r.end_date == OPEN)
              && !userDiffers s r)).length
            ≤ (w.filter (fun r => r.user_id == s.user_id && r.end_date == OPEN)).length := by
          apply length_filter_mono
          intro a _ ha
          simp only [Bool.and_eq_true] at ha
          simp [ha.1.1, ha.1.2]
        have hmono2 : (w.filter (fun r => r.user_id == s.user_id && r.end_date == OPEN
              && userDiffers s r)).length
            ≤ (w.filter (fun r => r.user_id == s.user_id && r.end_date == OPEN)).length := by
          apply length_filter_mono
          intro a _ ha
          simp only [Bool.and_eq_true] at ha
          simp [ha.1.1, ha.1.2]
        simp only [List.length_singleton]
        omega
    · have hno : ∀ s2 ∈ src, s2.user_id ≠ k := by
        intro s2 hs2 he
        exact hks ⟨s2, hs2, he⟩
      have hqmk : ∀ (l : List SrcUser) (sk2 : Int), (∀ x ∈ l, x ∈ src) →
          ((mkUserRows now batch l sk2).filter (fun r => (r.user_id == k
              && r.end_date == OPEN) && !anyDiffUsers src r)) = [] := by
        intro l sk2 hsub
        apply filter_false_nil
        intro r hr
        obtain ⟨s2, hs2l, sk3, rfl⟩ := mkUserRows_mem_src now batch l sk2 r hr
        have : s2.user_id ≠ k := hno s2 (hsub s2 hs2l)
        simp [mkUserSnap, this]
      rw [hqmk _ sk (fun x hx => (List.mem_filter.1 hx).1),
        hqmk _ (sk + (newUserCount src w : Int))
          (fun x hx => changedUserRows_mem_src src _ x hx)]
      simp only [List.length_nil, Nat.add_zero]
      have hmono : (w.filter (fun r => (r.user_id == k && r.end_date == OPEN)
            && !anyDiffUsers src r)).length
          ≤ (w.filter (fun r => r.user_id == k && r.end_date == OPEN)).length := by
        apply length_filter_mono
        intro a _ ha
        simp only [Bool.and_eq_true] at ha
        simp [ha.1.1, ha.1.2]
      have hwinv : (w.filter (fun r => r.user_id == k && r.end_date == OPEN)).length ≤ 1 :=
        hinv k
      omega
  · intro r hr hne
    unfold usersIncStep stepCloseUsers at hr
    rw [List.mem_map] at hr
    obtain ⟨r0, hr0, rfl⟩ := hr
    by_cases hc : (r0.end_date == OPEN && anyDiffUsers src r0) = true
    · rw [if_pos hc]
      simp
    · rw [if_neg hc] at hne ⊢
      have hr0w2 : r0 ∈ stepChangedUsers src batch now (sk + (newUserCount src w : Int))
          (stepNewUsers src batch now sk w) := hr0
      have hW2 : stepChangedUsers src batch now (sk + (newUserCount src w : Int))
            (stepNewUsers src batch now sk w)
          = (w ++ mkUserRows now batch (src.filter (fun x => !hasActiveUser w x)) sk)
            ++ mkUserRows now batch
                (changedUserRows src (stepNewUsers src batch now sk w))
                (sk + (newUserCount src w : Int)) := rfl
    
      rw [hW2] at hr0w2
      rcases List.mem_append.1 hr0w2 with hin | hin
      · rcases List.mem_append.1 hin with hin2 | hin2
        · exact hclosed r0 hin2 hne
        · obtain ⟨s2, -, sk2, rfl⟩ := mkUserRows_mem_src now batch _ sk r0 hin2
          exact absurd rfl hne
      · obtain ⟨s2, -, sk2, rfl⟩ := mkUserRows_mem_src now batch _
          (sk + (newUserCount src w : Int)) r0 hin
        exact absurd rfl hne

/-- Witness for the amended C2: applying the sequence-boundary invariant to
the one-user sample warehouse and the renaming source row. -/
theorem at_most_one_open_after_users_sequence_witness :
    (([exSrcUser].map (fun x => x.user_id)).Nodup ∧ (5 : Int) ≠ OPEN) ∧
    atMostOneOpen (usersIncStep [exSrcUser] 2 5 1 [exUserSnap]) :=
  ⟨⟨by decide, by decide⟩,
    (at_most_one_open_after_users_sequence [exSrcUser] 2 5 1 [exUserSnap]
      (atMostOneOpen_singleton exUserSnap)
      (by
        intro r hr hne
        simp only [List.mem_singleton] at hr
        subst hr
        exact absurd rfl hne)
      (by decide) (by decide)).1⟩

-- ═══════════════════════════ C4 ═══════════════════════════

/-- C4 counterexample: the close of the superseded version is not visible
before the new version is opened. In the committed state after the
changed-insert step (1.1.b) and before the close step (1.1.c), the newly
opened version for business key 7 exists while the superseded version is
still open. -/
theorem close_before_open_counterexample :
    exUserSnap7 ∈ stepChangedUsers [exSrcUser7] 2 5 8
        (stepNewUsers [exSrcUser7] 2 5 8 [exUserSnap7]) ∧
    exUserSnap7.end_date = OPEN ∧
    mkUserSnap exSrcUser7 8 5 2 ∈ stepChangedUsers [exSrcUser7] 2 5 8
        (stepNewUsers [exSrcUser7] 2 5 8 [exUserSnap7]) ∧
    (mkUserSnap exSrcUser7 8 5 2).end_date = OPEN := by
  decide

/-- C4 amended: the users sequence opens the new version (step 1.1.b)
before closing the superseded one (step 1.1.c) — in the intermediate
committed state both versions coexist open — and the subsequent close
step still retires the superseded version (giving it `end_date = now` and
`update_id = batch`) while leaving the freshly opened version open,
because the close predicate does not match the new version. -/
theorem open_before_close_retires_superseded
    (src : List SrcUser) (batch now sk : Int) (w : List UserSnap)
    (s : SrcUser) (r0 : UserSnap)
    (hs : s ∈ src) (hkeys : (src.map (fun x => x.user_id)).Nodup)
    (hr0 : r0 ∈ w) (hopen : r0.end_date = OPEN) (hkey : r0.user_id = s.user_id)
    (hdiff : userDiffers s r0 = true) :
    (∃ sk2 : Int,
      mkUserSnap s sk2 now batch ∈
        stepChangedUsers src batch now (sk + (newUserCount src w : Int))
          (stepNewUsers src batch now sk w) ∧
      r0 ∈ stepChangedUsers src batch now (sk + (newUserCount src w : Int))
          (stepNewUsers src batch now sk w)) ∧
    { r0 with end_date := now, update_id := some batch }
      ∈ usersIncStep src batch now sk w ∧
    (∃ sk2 : Int, mkUserSnap s sk2 now batch ∈ usersIncStep src batch now sk w) := by
  have huniqk : ∀ s2 ∈ src, s2.user_id = s.user_id → s2 = s := fun s2 hs2 he =>
    List.inj_on_of_nodup_map hkeys hs2 hs he
  have hW1eq : stepNewUsers src batch now sk w
      = w ++ mkUserRows now batch (src.filter (fun x => !hasActiveUser w x)) sk := rfl
  have hr0W1 : r0 ∈ stepNewUsers src batch now sk w := by
    rw [hW1eq]
    exact List.mem_append_left _ hr0
  have hsChanged : s ∈ changedUserRows src (stepNewUsers src batch now sk w) := by
    simp only [changedUserRows, List.mem_flatMap, List.mem_map]
    refine ⟨s, hs, r0, ?_, rfl⟩
    rw [List.mem_filter]
    exact ⟨hr0W1, by simp [hkey, hopen, hdiff]⟩
  have hW2eq : stepChangedUsers src batch now (sk + (newUserCount src w : Int))
        (stepNewUsers src batch now sk w)
      = stepNewUsers src batch now sk w
        ++ mkUserRows now batch (changedUserRows src (stepNewUsers src batch now sk w))
            (sk + (newUserCount src w : Int)) := rfl
  obtain ⟨sk2, hmk⟩ := mkUserRows_mem_intro now batch _
    (sk + (newUserCount src w : Int)) s hsChanged
  have hany0 : anyDiffUsers src (mkUserSnap s sk2 now batch) = false := by
    rw [anyDiffUsers_eq_userDiffers src s _ hs rfl huniqk]
    exact userDiffers_mkUserSnap s sk2 now batch
  refine ⟨⟨sk2, ?_, ?_⟩, ?_, ⟨sk2, ?_⟩⟩
  · rw [hW2eq]
    exact List.mem_append_right _ hmk
  · rw [hW2eq]
    exact List.mem_append_left _ hr0W1
  · unfold usersIncStep stepCloseUsers
    rw [List.mem_map]
    have hcond : (r0.end_date == OPEN && anyDiffUsers src r0) = true := by
      simp only [Bool.and_eq_true]
      refine ⟨by simp [hopen], ?_⟩
      simp only [anyDiffUsers, List.any_eq_true]
      exact ⟨s, hs, by simp [hkey, hdiff]⟩
    refine ⟨r0, ?_, ?_⟩
    · rw [hW2eq]
      exact List.mem_append_left _ hr0W1
    · rw [if_pos hcond]
  · unfold usersIncStep stepCloseUsers
    rw [List.mem_map]
    refine ⟨mkUserSnap s sk2 now batch, ?_, ?_⟩
    · rw [hW2eq]
      exact List.mem_append_right _ hmk
    · rw [if_neg (by simp [hany0])]

/-- Witness for the amended C4: in the sample run, user 7's superseded
snapshot ends closed with `update_id = 2` and the renamed version is the
open one. -/
theorem open_before_close_retires_superseded_witness :
    userDiffers exSrcUser7 exUserSnap7 = true ∧
    { exUserSnap7 with end_date := 5, update_id := some 2 }
      ∈ usersIncStep [exSrcUser7] 2 5 8 [exUserSnap7] ∧
    (∃ sk2 : Int, mkUserSnap exSrcUser7 sk2 5 2
      ∈ usersIncStep [exSrcUser7] 2 5 8 [exUserSnap7]) :=
  ⟨by decide,
    (open_before_close_retires_superseded [exSrcUser7] 2 5 8 [exUserSnap7]
      exSrcUser7 exUserSnap7 (by decide) (by decide) (by decide) (by decide)
      (by decide) (by decide)).2.1,
    (open_before_close_retires_superseded [exSrcUser7] 2 5 8 [exUserSnap7]
      exSrcUser7 exUserSnap7 (by decide) (by decide) (by decide) (by decide)
      (by decide) (by decide)).2.2⟩
